import Mathlib

/-!
# Verification of the deterministic invoice pipeline

A shallow embedding, in Lean 4, of the core of the `accounting_web`
invoice-processing service:

* the typed data model of `server/schemas/invoice.py`,
* the value parsers and field-location algorithm of
  `server/extract/deterministic.py`,
* the rules engine of `server/rules/engine.py`,
* the decision policy and patch application of `server/pipeline/route.py`,
* the LLM repair gateway of `server/llm/fallback.py`.

Modelling conventions, used throughout:

* Python `decimal.Decimal` values are modelled by `Dec`, an integer
  mantissa with a decimal scale; exact `Decimal` addition, subtraction and
  multiplication are mirrored exactly, and the tolerance comparisons
  `|a - b| / |b| > τ` (which Python evaluates with 28-digit `Decimal`
  division) are idealised to the exact rational comparison
  `|a - b| > τ·|b|`.
* Python `float` confidences are modelled by `ℚ`.
* `datetime.now()` timestamps are modelled by an explicit `ℕ` parameter
  threaded into the functions that consult the clock.
* The MD5 digests used for `layout_hash` and `duplicate_hash` are modelled
  by `stableHash`, an injective stand-in (the identity on the canonical
  input string): every property proved here depends only on the digest
  being a deterministic function of its input.
* Euclidean distances between token centres enter the source only through
  (a) monotone comparisons (`d < 200`, sorting by `d`), which are modelled
  exactly via squared distances, and (b) the confidence factor
  `1 - d/500`, for which the distance is computed by `qsqrt`, an exact
  square root on perfect rational squares (every concrete token layout in
  this file has integer point distances, where `qsqrt` agrees with the
  real square root); the confidence-formula theorem is additionally stated
  for an arbitrary exact Euclidean distance `d` with `d * d` equal to the
  squared distance.
-/

/-! ## Exact fractions

Python `float` arithmetic (confidences, thresholds, tolerance factors) is
idealised as exact rational arithmetic.  `Frac` is an unnormalised
fraction `n / d`; every value built by the embedding has a positive
denominator, and no operation divides, so this is preserved.  Using raw
`Int`/`Nat` arithmetic (instead of `ℚ`, whose operations normalise through
`Nat.gcd` in ways the kernel cannot reduce) keeps every concrete pipeline
run evaluable by `decide`. -/

/-- An exact fraction `n / d`.  All constructed values have `0 < d`. -/
structure Frac where
  n : Int
  d : Nat
deriving DecidableEq, Repr

namespace Frac

/-- The rational value of a fraction (used only in statements). -/
def toQ (x : Frac) : ℚ := (x.n : ℚ) / (x.d : ℚ)

/-- Embed an integer. -/
def ofInt (k : Int) : Frac := ⟨k, 1⟩

/-- Exact addition (cross-multiplied, no normalisation). -/
def add (a b : Frac) : Frac := ⟨a.n * b.d + b.n * a.d, a.d * b.d⟩

/-- Exact subtraction. -/
def sub (a b : Frac) : Frac := ⟨a.n * b.d - b.n * a.d, a.d * b.d⟩

/-- Exact multiplication. -/
def mul (a b : Frac) : Frac := ⟨a.n * b.n, a.d * b.d⟩

/-- Absolute value. -/
def abs (a : Frac) : Frac := ⟨|a.n|, a.d⟩

/-- `a ≤ b` for fractions with positive denominators. -/
def ble (a b : Frac) : Bool := a.n * b.d ≤ b.n * a.d

/-- `a < b` for fractions with positive denominators. -/
def blt (a b : Frac) : Bool := a.n * b.d < b.n * a.d

/-- Python `min(a, b)` (returns the first argument on ties). -/
def fmin (a b : Frac) : Frac := if ble a b then a else b

/-- Python `max(a, b)` (returns the first argument on ties). -/
def fmax (a b : Frac) : Frac := if blt a b then b else a

end Frac

/-! ## Decimal numbers (`decimal.Decimal`) -/

/-- Python `decimal.Decimal` as produced and consumed by the pipeline: an
integer mantissa `mant` together with a decimal `scale`, denoting the value
`mant / 10 ^ scale`.  `str` of such a decimal prints exactly `scale`
fractional digits, which is what `_validate_rounding_policy` counts. -/
structure Dec where
  mant : Int
  scale : Nat
deriving DecidableEq, Repr

namespace Dec

/-- The exact rational value of a decimal. -/
def toQ (d : Dec) : ℚ := (d.mant : ℚ) / (10 : ℚ) ^ d.scale

/-- Exact `Decimal` addition: align to the larger scale. -/
def add (a b : Dec) : Dec :=
  let s := max a.scale b.scale
  ⟨a.mant * (10 : Int) ^ (s - a.scale) + b.mant * (10 : Int) ^ (s - b.scale), s⟩

/-- Exact `Decimal` subtraction: align to the larger scale. -/
def sub (a b : Dec) : Dec :=
  let s := max a.scale b.scale
  ⟨a.mant * (10 : Int) ^ (s - a.scale) - b.mant * (10 : Int) ^ (s - b.scale), s⟩

/-- Exact `Decimal` multiplication: scales add. -/
def mul (a b : Dec) : Dec := ⟨a.mant * b.mant, a.scale + b.scale⟩

/-- A decimal literal with `n` as value and scale 0. -/
def ofInt (n : Int) : Dec := ⟨n, 0⟩

end Dec

/-! ## Decimal string parsing (`decimal.Decimal(text)`) -/

/-- Value of a list of decimal digits. -/
def digitsToNat (cs : List Char) : Nat :=
  cs.foldl (fun acc c => 10 * acc + (c.toNat - '0'.toNat)) 0

/-- Split `digits* ['.' digits*]` into integer and fraction digits;
`none` when the shape is violated (a second dot, a stray character). -/
def decDigits (cs : List Char) : Option (List Char × List Char) :=
  match cs.span (·.isDigit) with
  | (ds, []) => some (ds, [])
  | (ds, '.' :: rest) => if rest.all (·.isDigit) then some (ds, rest) else none
  | _ => none

/-- `decimal.Decimal(s)` restricted to the plain decimal grammar
`['-'] digits* ['.' digits*]` with at least one digit (the only shapes the
pipeline ever feeds it); every other input raises `InvalidOperation`,
modelled as `none`.  Exponents and special values (`NaN`, `Infinity`) never
occur in the pipeline and are not modelled. -/
def parseDecimal (s : String) : Option Dec :=
  match s.toList with
  | [] => none
  | cs =>
    let neg := cs.head? = some '-'
    let body := if neg then cs.tail else cs
    match decDigits body with
    | none => none
    | some (ip, fp) =>
      if ip.isEmpty ∧ fp.isEmpty then none
      else
        let m : Nat := digitsToNat (ip ++ fp)
        some ⟨if neg then -(m : Int) else (m : Int), fp.length⟩

/-! ## The monetary value parser (`DeterministicExtractor._parse_amount`) -/

/-- `DeterministicExtractor._parse_amount`: strip every character outside
`[0-9.,-]`; if both `,` and `.` remain, remove the commas; if only `,`
remains, treat it as a decimal point exactly when there is a single comma
with at most two characters after it, and otherwise remove the commas;
finally parse as a `Decimal`. -/
def parse_amount (text : String) : Option Dec :=
  let cleaned := text.toList.filter (fun c => c.isDigit || c = '.' || c = ',' || c = '-')
  if cleaned.isEmpty then none
  else
    let t :=
      if cleaned.contains ',' ∧ cleaned.contains '.' then
        cleaned.filter (· ≠ ',')
      else if cleaned.contains ',' then
        if cleaned.count ',' = 1 ∧ ((cleaned.dropWhile (· ≠ ',')).tail.length ≤ 2) then
          cleaned.map (fun c => if c = ',' then '.' else c)
        else
          cleaned.filter (· ≠ ',')
      else cleaned
    parseDecimal (String.mk t)

/-! ## Data model (`server/schemas/invoice.py`) -/

/-- Conversion of a decimal to an exact fraction. -/
def Dec.toFrac (x : Dec) : Frac := ⟨x.mant, 10 ^ x.scale⟩

/-- A calendar date (`datetime.date`). -/
structure Date where
  year : Nat
  month : Nat
  day : Nat
deriving DecidableEq, Repr

/-- Strict comparison of dates (`<` on `datetime.date`). -/
def Date.lt (a b : Date) : Bool :=
  a.year < b.year ∨ (a.year = b.year ∧ (a.month < b.month ∨ (a.month = b.month ∧ a.day < b.day)))

/-- Gregorian leap year, as validated by `datetime.strptime`. -/
def isLeapYear (y : Nat) : Bool := y % 4 = 0 ∧ (y % 100 ≠ 0 ∨ y % 400 = 0)

/-- Days in a month, as validated by `datetime.strptime`. -/
def daysInMonth (y m : Nat) : Nat :=
  if m = 2 then (if isLeapYear y then 29 else 28)
  else if m = 4 ∨ m = 6 ∨ m = 9 ∨ m = 11 then 30
  else 31

/-- A calendar-valid date accepted by `datetime` (year at least 1). -/
def validDate (y m d : Nat) : Bool :=
  1 ≤ y ∧ 1 ≤ m ∧ m ≤ 12 ∧ 1 ≤ d ∧ d ≤ daysInMonth y m

/-- Zero-pad a number to `w` digits. -/
def padNum (w : Nat) (k : Nat) : String :=
  let s := toString k
  String.mk (List.replicate (w - s.length) '0') ++ s

/-- `str(datetime.date)`: ISO `YYYY-MM-DD`. -/
def Date.pyStr (dt : Date) : String :=
  padNum 4 dt.year ++ "-" ++ padNum 2 dt.month ++ "-" ++ padNum 2 dt.day

/-- `str(decimal.Decimal)`: the mantissa printed with exactly `scale`
fractional digits. -/
def Dec.pyStr (x : Dec) : String :=
  let sign := if x.mant < 0 then "-" else ""
  let ds := toString x.mant.natAbs
  if x.scale = 0 then sign ++ ds
  else
    let ds := if ds.length ≤ x.scale then
        String.mk (List.replicate (x.scale + 1 - ds.length) '0') ++ ds
      else ds
    sign ++ String.mk ((ds.toList.take (ds.length - x.scale)) ++ '.' ::
      (ds.toList.drop (ds.length - x.scale)))

/-- A dynamically-typed field value, covering the payloads the pipeline
actually stores: strings, decimals (`float` quantities and percentages are
decimal-representable and modelled as `num`), and dates. -/
inductive FVal where
  | str (s : String)
  | num (x : Dec)
  | date (dt : Date)
deriving DecidableEq, Repr

/-- Python truthiness of a field value (`bool(v)`): empty strings and zero
decimals are falsy. -/
def FVal.truthy : FVal → Bool
  | .str s => s ≠ ""
  | .num x => x.mant ≠ 0
  | .date _ => true

/-- Python truthiness of an optional value (`None` is falsy). -/
def optTruthy (v : Option FVal) : Bool :=
  match v with
  | some v => v.truthy
  | none => false

/-- `f"{v}"` of an optional value (`None` prints as `"None"`). -/
def optPyStr (v : Option FVal) : String :=
  match v with
  | some (.str s) => s
  | some (.num x) => x.pyStr
  | some (.date dt) => dt.pyStr
  | none => "None"

/-- A bounding box `[x1, y1, x2, y2]`. -/
structure Bbox where
  x1 : Frac
  y1 : Frac
  x2 : Frac
  y2 : Frac
deriving DecidableEq, Repr

/-- `Evidence`: page, bounding box, raw OCR text, OCR confidence. -/
structure Evidence where
  page : Nat
  bbox : Bbox
  text : String
  confidence : Frac
deriving DecidableEq, Repr

/-- `FieldValue`: an optional value with confidence and evidence.  The
pydantic model constrains only `confidence ∈ [0, 1]` (see
`fieldValueValid`). -/
structure FieldValue where
  value : Option FVal
  confidence : Frac
  evidence : List Evidence
deriving DecidableEq, Repr

/-- The pydantic validation performed when a `FieldValue` is constructed:
`confidence` must lie in `[0, 1]`.  No other invariant is checked. -/
def fieldValueValid (fv : FieldValue) : Prop :=
  0 ≤ fv.confidence.toQ ∧ fv.confidence.toQ ≤ 1

/-- An OCR token. -/
structure Token where
  text : String
  confidence : Frac
  page : Nat
  bbox : Bbox
deriving DecidableEq, Repr

/-- `Vendor` information. -/
structure Vendor where
  name : FieldValue
  address : Option FieldValue
  tax_id : Option FieldValue
  phone : Option FieldValue
  email : Option FieldValue
  layout_hash : Option String
deriving DecidableEq, Repr

/-- `Amounts`: financial amounts. -/
structure Amounts where
  subtotal : Option FieldValue
  tax_amount : Option FieldValue
  tax_rate : Option FieldValue
  discount : Option FieldValue
  shipping : Option FieldValue
  grand_total : FieldValue
  currency : FieldValue
deriving DecidableEq, Repr

/-- `LineItem`. -/
structure LineItem where
  description : FieldValue
  quantity : Option FieldValue
  unit_price : Option FieldValue
  total : Option FieldValue
  tax_amount : Option FieldValue
  tax_rate : Option FieldValue
  category : Option String
  category_confidence : Option Frac
deriving DecidableEq, Repr

/-- `Invoice`.  `created_at` (a `datetime.now()` timestamp, modelled as
`ℕ`) is the only field whose default is read off the wall clock. -/
structure Invoice where
  invoice_number : FieldValue
  invoice_date : FieldValue
  due_date : Option FieldValue
  vendor : Vendor
  amounts : Amounts
  line_items : List LineItem
  notes : Option FieldValue
  payment_terms : Option FieldValue
  po_number : Option FieldValue
  processing_id : String
  created_at : Nat
  source_file : String
  extraction_method : String
  llm_patch_applied : Bool
  human_reviewed : Bool
  duplicate_hash : Option String
deriving DecidableEq, Repr

/-- A rule failure record.  The source stores a dict with `rule`, `path`
and explanatory strings (`reason`, `suggested_fix`, numeric context); only
`rule` and `path` feed any later decision, so only they are modelled. -/
structure RuleFailure where
  rule : String
  path : String
deriving DecidableEq, Repr

/-- `RuleReport`. -/
structure RuleReport where
  passed : Bool
  failures : List RuleFailure
  warnings : List RuleFailure
deriving DecidableEq, Repr

/-- `RuleReport.ok()`. -/
def RuleReport.ok (r : RuleReport) : Bool :=
  r.passed && r.failures.length == 0

/-- `JsonPatch`: the pydantic model requires the four keys `op`, `path`,
`value`, `rationale` (of the right types) and defaults `cites_bbox` to the
empty list; no other constraint is enforced at construction. -/
structure JsonPatch where
  op : String
  path : String
  value : Option FVal
  rationale : String
  cites_bbox : List String
deriving DecidableEq, Repr

/-- `ProcessingResult`.  `final_json` (a re-serialisation of the invoice)
and `audit_trail` (always constructed empty) are omitted. -/
structure ProcessingResult where
  invoice : Invoice
  rule_report : RuleReport
  llm_patch : Option (List JsonPatch)
  status : String
deriving DecidableEq, Repr

/-- `ProcessingThresholds` configuration. -/
structure ProcessingThresholds where
  field_confidence_threshold : Frac
  category_confidence_threshold : Frac
  arithmetic_tolerance : Frac
  rounding_decimal_places : Nat
deriving DecidableEq, Repr

/-- The default thresholds (0.82, 0.75, 0.02, 2). -/
def defaultThresholds : ProcessingThresholds :=
  { field_confidence_threshold := ⟨82, 100⟩
    category_confidence_threshold := ⟨75, 100⟩
    arithmetic_tolerance := ⟨2, 100⟩
    rounding_decimal_places := 2 }

/-! ## Rules engine (`server/rules/engine.py`) -/

/-- `Decimal(str(v))` on a field value: decimals pass through, strings are
re-parsed by the decimal grammar, dates (whose `str` is not a decimal)
raise, modelled as `none`. -/
def decOfFVal : FVal → Option Dec
  | .num x => some x
  | .str s => parseDecimal s.trim
  | .date _ => none

/-- The guard-and-convert pattern
`if field and field.value: d = Decimal(str(field.value))` used on every
optional amount: `none` when the guard is falsy (field absent, value
`None`, or value falsy, i.e. the branch is skipped), `some none` when the
conversion raises, `some (some d)` on success. -/
def amtDec (o : Option FieldValue) : Option (Option Dec) :=
  match o with
  | some fv =>
    match fv.value with
    | some v => if v.truthy then some (decOfFVal v) else none
    | none => none
  | none => none

/-- Truthiness of an optional field (`if field and field.value`). -/
def optFieldTruthy (o : Option FieldValue) : Bool :=
  match o with
  | some fv => optTruthy fv.value
  | none => false

/-- The relative-tolerance test `abs(a - e) / abs(e) > τ`, evaluated
exactly as `|a - e| > τ·|e|` (the source divides 28-digit `Decimal`s; the
comparison is the same). -/
def relTolExceeded (τ : Frac) (a e : Dec) : Bool :=
  Frac.blt (τ.mul (e.toFrac.abs)) ((a.toFrac.sub e.toFrac).abs)

/-- `RulesEngine._validate_arithmetic`: check
`grand_total ≈ subtotal + tax + shipping − discount`, where a missing
subtotal makes the expected total start from the grand total itself, and
the remaining operands are still added/subtracted when truthy.  Any
failed `Decimal` conversion lands in the `except` branch (path
`/amounts`). -/
def validate_arithmetic (τ : Frac) (inv : Invoice) : List RuleFailure :=
  match inv.amounts.grand_total.value.bind decOfFVal with
  | none => [⟨"arithmetic_balance", "/amounts"⟩]
  | some gt =>
    let step (acc : Option Dec) (field : Option FieldValue) (f : Dec → Dec → Dec) :
        Option Dec :=
      match acc with
      | none => none
      | some e =>
        match amtDec field with
        | none => some e
        | some none => none
        | some (some x) => some (f e x)
    let base : Option Dec :=
      match amtDec inv.amounts.subtotal with
      | none => some gt
      | some none => none
      | some (some s) => some ((Dec.ofInt 0).add s)
    let expected :=
      step (step (step base inv.amounts.tax_amount .add) inv.amounts.shipping .add)
        inv.amounts.discount .sub
    match expected with
    | none => [⟨"arithmetic_balance", "/amounts"⟩]
    | some e =>
      if e.mant ≠ 0 ∧ relTolExceeded τ gt e then
        [⟨"arithmetic_balance", "/amounts/grand_total"⟩]
      else []

/-- The line-item accumulation loop of `RulesEngine._validate_line_sum`:
`Σ qty·unit_price` and `Σ line.tax_amount`; `none` when a `Decimal`
conversion raises. -/
def lineSums (items : List LineItem) : Option (Dec × Dec) :=
  items.foldl
    (fun acc it =>
      match acc with
      | none => none
      | some (lt, ltt) =>
        let lt? :=
          if optFieldTruthy it.quantity ∧ optFieldTruthy it.unit_price then
            match amtDec it.quantity, amtDec it.unit_price with
            | some (some q), some (some p) => some (lt.add (q.mul p))
            | _, _ => none
          else some lt
        match lt? with
        | none => none
        | some lt' =>
          match amtDec it.tax_amount with
          | none => some (lt', ltt)
          | some none => none
          | some (some t) => some (lt', ltt.add t))
    (some (Dec.ofInt 0, Dec.ofInt 0))

/-- `RulesEngine._validate_line_sum`. -/
def validate_line_sum (τ : Frac) (inv : Invoice) : List RuleFailure :=
  match lineSums inv.line_items with
  | none => [⟨"line_sum", "/line_items"⟩]
  | some (lineTotal, lineTax) =>
    let sub? : Option Dec :=
      match amtDec inv.amounts.subtotal with
      | none => some (Dec.ofInt 0)
      | some none => none
      | some (some s) => some s
    let tax? : Option Dec :=
      match amtDec inv.amounts.tax_amount with
      | none => some (Dec.ofInt 0)
      | some none => none
      | some (some t) => some t
    match sub?, tax? with
    | some isub, some itax =>
      (if isub.mant ≠ 0 ∧ relTolExceeded τ isub lineTotal then
        [⟨"line_sum_subtotal", "/amounts/subtotal"⟩]
      else []) ++
      (if itax.mant ≠ 0 ∧ relTolExceeded τ itax lineTax then
        [⟨"line_sum_tax", "/amounts/tax_amount"⟩]
      else [])
    | _, _ => [⟨"line_sum", "/line_items"⟩]

/-- `RulesEngine._validate_dates`. -/
def validate_dates (inv : Invoice) : List RuleFailure :=
  (if ¬ optTruthy inv.invoice_date.value then
    [⟨"required_date", "/invoice_date"⟩]
  else
    match inv.invoice_date.value with
    | some (.date _) => []
    | _ => [⟨"date_format", "/invoice_date"⟩]) ++
  (if optFieldTruthy inv.due_date then
    match inv.due_date.bind (·.value) with
    | some (.date due) =>
      match inv.invoice_date.value with
      | some (.date d) => if due.lt d then [⟨"date_logic", "/due_date"⟩] else []
      | _ => []
    | _ => [⟨"date_format", "/due_date"⟩]
  else [])

/-- The allowed ISO-4217 currency codes. -/
def allowedCurrencies : List String :=
  ["EUR", "USD", "GBP", "JPY", "SAR", "AED", "EGP", "QAR", "KWD", "BHD"]

/-- The per-field non-negativity/parseability check of
`RulesEngine._validate_currency` (guard `field and field.value is not
None`). -/
def amountFieldCheck (name : String) (o : Option FieldValue) : List RuleFailure :=
  match o with
  | some fv =>
    match fv.value with
    | some v =>
      match decOfFVal v with
      | some x =>
        if x.mant < 0 then [⟨"non_negative_amount", "/amounts/" ++ name⟩] else []
      | none => [⟨"amount_format", "/amounts/" ++ name⟩]
    | none => []
  | none => []

/-- `RulesEngine._validate_currency`: currency-code membership plus the
non-negative/parseable sweep over the five amount fields. -/
def validate_currency (inv : Invoice) : List RuleFailure :=
  (if ¬ optTruthy inv.amounts.currency.value then
    [⟨"required_currency", "/amounts/currency"⟩]
  else
    match inv.amounts.currency.value with
    | some (.str s) =>
      if s ∈ allowedCurrencies then [] else [⟨"currency_format", "/amounts/currency"⟩]
    | _ => [⟨"currency_format", "/amounts/currency"⟩]) ++
  amountFieldCheck "grand_total" (some inv.amounts.grand_total) ++
  amountFieldCheck "subtotal" inv.amounts.subtotal ++
  amountFieldCheck "tax_amount" inv.amounts.tax_amount ++
  amountFieldCheck "discount" inv.amounts.discount ++
  amountFieldCheck "shipping" inv.amounts.shipping

/-- `RulesEngine._validate_duplicate_hash`. -/
def validate_duplicate_hash (inv : Invoice) : List RuleFailure :=
  match inv.duplicate_hash with
  | some h => if h = "" then [⟨"duplicate_hash", "/duplicate_hash"⟩] else []
  | none => [⟨"duplicate_hash", "/duplicate_hash"⟩]

/-- `RulesEngine._validate_tax_coherence`:
`tax_amount ≈ subtotal · (tax_rate / 100)` when rate, amount and subtotal
are all truthy; conversion errors land in the `except` branch. -/
def validate_tax_coherence (τ : Frac) (inv : Invoice) : List RuleFailure :=
  if optFieldTruthy inv.amounts.tax_rate ∧ optFieldTruthy inv.amounts.tax_amount then
    match amtDec inv.amounts.tax_rate, amtDec inv.amounts.tax_amount with
    | some (some r), some (some t) =>
      match amtDec inv.amounts.subtotal with
      | none => []
      | some none => [⟨"tax_coherence", "/amounts"⟩]
      | some (some s) =>
        let expected : Frac := s.toFrac.mul (r.toFrac.mul ⟨1, 100⟩)
        if expected.n ≠ 0 ∧ Frac.blt (τ.mul expected.abs) ((t.toFrac.sub expected).abs) then
          [⟨"tax_coherence", "/amounts/tax_amount"⟩]
        else []
    | _, _ => [⟨"tax_coherence", "/amounts"⟩]
  else []

/-- The per-field decimal-places check of
`RulesEngine._validate_rounding_policy`: `str(Decimal)` shows exactly
`scale` fractional digits; conversion errors are swallowed. -/
def roundingCheck (maxdp : Nat) (name : String) (o : Option FieldValue) :
    List RuleFailure :=
  match o with
  | some fv =>
    match fv.value with
    | some v =>
      match decOfFVal v with
      | some x =>
        if maxdp < x.scale then [⟨"rounding_policy", "/amounts/" ++ name⟩] else []
      | none => []
    | none => []
  | none => []

/-- `RulesEngine._validate_rounding_policy`. -/
def validate_rounding_policy (maxdp : Nat) (inv : Invoice) : List RuleFailure :=
  roundingCheck maxdp "grand_total" (some inv.amounts.grand_total) ++
  roundingCheck maxdp "subtotal" inv.amounts.subtotal ++
  roundingCheck maxdp "tax_amount" inv.amounts.tax_amount ++
  roundingCheck maxdp "discount" inv.amounts.discount ++
  roundingCheck maxdp "shipping" inv.amounts.shipping

/-- `RulesEngine.validate_invoice`: run all rules, collect the failures,
and set `passed` exactly when no rule failed. -/
def validate_invoice (th : ProcessingThresholds) (inv : Invoice) : RuleReport :=
  let failures :=
    validate_arithmetic th.arithmetic_tolerance inv ++
    validate_line_sum th.arithmetic_tolerance inv ++
    validate_dates inv ++
    validate_currency inv ++
    validate_duplicate_hash inv ++
    validate_tax_coherence th.arithmetic_tolerance inv ++
    validate_rounding_policy th.rounding_decimal_places inv
  { passed := failures.isEmpty, failures := failures, warnings := [] }

/-! ## Decision policy and patch application (`server/pipeline/route.py`) -/

/-- The required fields checked by
`ProcessingPipeline._check_field_confidence`. -/
def requiredFields (inv : Invoice) : List FieldValue :=
  [inv.invoice_number, inv.invoice_date, inv.vendor.name,
   inv.amounts.grand_total, inv.amounts.currency]

/-- `ProcessingPipeline._check_field_confidence`: no required field may
fall below the field-confidence threshold. -/
def check_field_confidence (th : ProcessingThresholds) (inv : Invoice) : Bool :=
  (requiredFields inv).all
    (fun f => ¬ Frac.blt f.confidence th.field_confidence_threshold)

/-- `ProcessingPipeline._check_category_confidence`: a line item blocks
only when its category confidence is truthy (nonzero) and below the
threshold; no line items passes vacuously. -/
def check_category_confidence (th : ProcessingThresholds) (inv : Invoice) : Bool :=
  inv.line_items.all
    (fun it =>
      match it.category_confidence with
      | some c => ¬ (c.n ≠ 0 ∧ Frac.blt c th.category_confidence_threshold)
      | none => true)

/-- The `fixable_rules` list of `ProcessingPipeline._has_fixable_rules`. -/
def fixable_rules : List String :=
  ["arithmetic_balance", "line_sum_subtotal", "line_sum_tax", "date_format",
   "currency_format", "tax_coherence", "rounding_policy"]

/-- `ProcessingPipeline._has_fixable_rules`: true when SOME failure's rule
is in the fixable list (the loop returns on the first fixable failure). -/
def has_fixable_rules (r : RuleReport) : Bool :=
  r.failures.any (fun f => fixable_rules.contains f.rule)

/-- The three actions of `ProcessingPipeline._make_processing_decision`. -/
inductive Decision where
  | auto_post
  | llm_fallback
  | needs_review
deriving DecidableEq, Repr

/-- `ProcessingPipeline._make_processing_decision`. -/
def make_processing_decision (th : ProcessingThresholds) (inv : Invoice)
    (r : RuleReport) : Decision :=
  if check_field_confidence th inv ∧ r.passed ∧ check_category_confidence th inv then
    .auto_post
  else if ¬ r.passed ∧ has_fixable_rules r then
    .llm_fallback
  else
    .needs_review

/-- Python `s.strip(c)`: remove `c` from both ends. -/
def pyStrip (c : Char) (s : String) : String :=
  String.mk (((s.toList.dropWhile (· = c)).reverse.dropWhile (· = c)).reverse)

/-- Python `s.strip()`: remove whitespace from both ends. -/
def stripWs (s : String) : String :=
  String.mk (((s.toList.dropWhile (·.isWhitespace)).reverse.dropWhile (·.isWhitespace)).reverse)

/-- Split a character list at every occurrence of `c` (Python
`s.split(c)`: the empty string yields one empty segment). -/
def splitChar (c : Char) : List Char → List (List Char)
  | [] => [[]]
  | x :: xs =>
    match splitChar c xs with
    | [] => [[]]
    | seg :: rest => if x = c then [] :: seg :: rest else (x :: seg) :: rest

/-- `path.strip('/').split('/')`. -/
def pathParts (s : String) : List String :=
  (splitChar '/' (pyStrip '/' s).toList).map String.mk

/-- `ProcessingPipeline._apply_replace_patch`: dispatch on
`path.strip('/').split('/')`; unknown paths are ignored, and the
exceptions raised on a missing second component or a `None` optional
amount are swallowed by the caller's `except`, leaving the invoice
unchanged. -/
def apply_replace_patch (inv : Invoice) (p : JsonPatch) : Invoice :=
  match pathParts p.path with
  | "amounts" :: rest =>
    match rest with
    | "grand_total" :: _ => { inv with amounts.grand_total.value := p.value }
    | "subtotal" :: _ =>
      match inv.amounts.subtotal with
      | some fv => { inv with amounts.subtotal := some { fv with value := p.value } }
      | none => inv
    | "tax_amount" :: _ =>
      match inv.amounts.tax_amount with
      | some fv => { inv with amounts.tax_amount := some { fv with value := p.value } }
      | none => inv
    | _ => inv
  | "invoice_number" :: _ => { inv with invoice_number.value := p.value }
  | "invoice_date" :: _ => { inv with invoice_date.value := p.value }
  | _ => inv

/-- `ProcessingPipeline._apply_patch_to_invoice`: apply the patches in
order; `replace` dispatches to `apply_replace_patch`, `add` is a no-op
(`_apply_add_patch` is `pass`), anything else is skipped. -/
def apply_patch_to_invoice (inv : Invoice) (ps : List JsonPatch) : Invoice :=
  ps.foldl (fun acc p => if p.op = "replace" then apply_replace_patch acc p else acc) inv

/-- The `llm_fallback` branch of
`ProcessingPipeline._process_invoice_async` (route.py lines 104–125):
with a truthy (non-`None`, nonempty) patch list, apply it, re-validate
once, and report `auto_posted` on success and `needs_review` otherwise;
with no patch, report `needs_review` on the original rule report.  No
branch touches `invoice.llm_patch_applied`. -/
def llm_fallback_finalize (th : ProcessingThresholds) (inv : Invoice)
    (report : RuleReport) (llm_patch : Option (List JsonPatch)) : ProcessingResult :=
  match llm_patch with
  | some ps =>
    if ps.isEmpty then ⟨inv, report, none, "needs_review"⟩
    else
      let inv' := apply_patch_to_invoice inv ps
      let report' := validate_invoice th inv'
      if report'.passed then ⟨inv', report', some ps, "auto_posted"⟩
      else ⟨inv', report', some ps, "needs_review"⟩
  | none => ⟨inv, report, none, "needs_review"⟩

/-! ## LLM repair gateway (`server/llm/fallback.py`) -/

/-- One element of the decoded JSON array of an LLM response: each key may
be present or absent (`value` may additionally be JSON `null`). -/
structure PatchDict where
  op : Option String
  path : Option String
  value : Option (Option FVal)
  rationale : Option String
  cites_bbox : Option (List String)
deriving DecidableEq, Repr

/-- `JsonPatch(**patch_dict)`: pydantic construction succeeds exactly when
the four required keys `op`, `path`, `value`, `rationale` are present
(with the right types); `cites_bbox` defaults to `[]`. -/
def jsonPatchOfDict (d : PatchDict) : Option JsonPatch :=
  match d.op, d.path, d.value, d.rationale with
  | some o, some p, some v, some r => some ⟨o, p, v, r, d.cites_bbox.getD []⟩
  | _, _, _, _ => none

/-- `LLMFallback._parse_llm_response` after JSON decoding: `none` models a
response that is not valid JSON or not a list; otherwise each element that
fails `JsonPatch` construction is skipped and the rest are returned —
no other validation is applied. -/
def parse_llm_response (resp : Option (List PatchDict)) : Option (List JsonPatch) :=
  match resp with
  | none => none
  | some l => some (l.filterMap jsonPatchOfDict)

/-- `LLMFallback._validate_patch` (the `invoice` argument is unused in the
source): path must start with `/`, op must be `replace` or `add`,
rationale must be truthy with stripped length ≥ 10, `cites_bbox` must be
nonempty. -/
def validate_patch (p : JsonPatch) : Bool :=
  (p.path.toList.head? == some '/') &&
  (p.op = "replace" ∨ p.op = "add") &&
  ¬ (p.rationale = "" ∨ (stripWs p.rationale).length < 10) &&
  ¬ p.cites_bbox.isEmpty

/-- The tail of `LLMFallback.propose_patch`: a parse failure or an empty
parsed list yields `[]`; a nonempty parsed list is returned as is
(`_validate_patch` is never invoked on it). -/
def propose_patch_result (parsed : Option (List JsonPatch)) : List JsonPatch :=
  match parsed with
  | some ps => if ps.isEmpty then [] else ps
  | none => []

/-! ## Deterministic extractor (`server/extract/deterministic.py`) -/

/-- ASCII lowercasing of one character (`str.lower()`; characters outside
`A`–`Z`, including the Arabic pattern letters, are unchanged). -/
def lowerChar (c : Char) : Char :=
  if 'A' ≤ c ∧ c ≤ 'Z' then Char.ofNat (c.toNat + 32) else c

/-- `str.lower()`. -/
def lowerStr (s : String) : String := String.mk (s.toList.map lowerChar)

/-- Substring search over character lists (Python `needle in haystack`). -/
def subSearch (needle : List Char) : List Char → Bool
  | [] => needle.isEmpty
  | c :: t => needle.isPrefixOf (c :: t) || subSearch needle t

/-- Python `pat in s`. -/
def strContains (s pat : String) : Bool := subSearch pat.toList s.toList

/-- Join character lists with a separator (`sep.join(parts)`). -/
def joinWith (sep : List Char) : List (List Char) → List Char
  | [] => []
  | [p] => p
  | p :: q :: r => p ++ sep ++ joinWith sep (q :: r)

/-- Stable insertion: `x` goes after every existing element not strictly
greater (the insertion step of a stable ascending sort). -/
def stInsertBy (lt : α → α → Bool) (x : α) : List α → List α
  | [] => [x]
  | y :: ys => if lt x y then x :: y :: ys else y :: stInsertBy lt x ys

/-- Stable ascending sort (models Python's stable `sorted`/`list.sort`:
elements with equal keys keep their original order). -/
def stSortBy (lt : α → α → Bool) (l : List α) : List α :=
  l.foldl (fun acc x => stInsertBy lt x acc) []

/-- Value equality of fractions (positive denominators assumed). -/
def Frac.veq (a b : Frac) : Bool := a.n * b.d = b.n * a.d

/-- The x-coordinate of a bounding-box centre. -/
def Bbox.centerX (b : Bbox) : Frac := (b.x1.add b.x2).mul ⟨1, 2⟩

/-- The y-coordinate of a bounding-box centre. -/
def Bbox.centerY (b : Bbox) : Frac := (b.y1.add b.y2).mul ⟨1, 2⟩

/-- The square of `DeterministicExtractor._calculate_token_distance` (the
Euclidean distance between bounding-box centres).  The source compares
distances with thresholds and sorts by them; both are monotone in the
square, which stays rational. -/
def tokenDistSq (a b : Token) : Frac :=
  let dx := a.bbox.centerX.sub b.bbox.centerX
  let dy := a.bbox.centerY.sub b.bbox.centerY
  (dx.mul dx).add (dy.mul dy)

/-- Newton iteration for the integer square root (the fuel argument makes
the recursion structural, so concrete values reduce in the kernel). -/
def sqrtFuel : Nat → Nat → Nat → Nat
  | 0, x, _ => x
  | fuel + 1, x, n =>
    let y := (x + n / x) / 2
    if y < x then sqrtFuel fuel y n else x

/-- Integer (floor) square root. -/
def natSqrt (n : Nat) : Nat := if n ≤ 1 then n else sqrtFuel n (n / 2) n

/-- Square root on fractions, exact whenever the numerator and denominator
of the given representation are perfect squares — which holds for every
concrete token layout in this file (integer coordinates with Pythagorean
centre offsets).  Only the confidence factor `1 − d/500` consumes it. -/
def qsqrt (x : Frac) : Frac := ⟨(natSqrt x.n.toNat : Int), natSqrt x.d⟩

/-- `DeterministicExtractor._calculate_token_distance`. -/
def tokenDistance (a b : Token) : Frac := qsqrt (tokenDistSq a b)

/-- The multilingual label dictionaries of
`DeterministicExtractor._build_label_patterns`, in source order. -/
def labelPatterns : List (String × List String) :=
  [("total",
    ["total", "grand total", "amount due", "net total", "final total",
     "amount", "sum", "subtotal", "total amount", "invoice total",
     "الإجمالي", "المجموع", "المبلغ الإجمالي", "المبلغ المستحق",
     "المبلغ النهائي", "المبلغ الصافي", "إجمالي الفاتورة"]),
   ("tax",
    ["tax", "vat", "gst", "sales tax", "tax amount", "tax total",
     "value added tax", "taxable amount", "tax rate",
     "ضريبة", "ضريبة القيمة المضافة", "ضريبة المبيعات", "مبلغ الضريبة",
     "إجمالي الضريبة", "نسبة الضريبة", "المبلغ الخاضع للضريبة"]),
   ("discount",
    ["discount", "deduction", "rebate", "discount amount", "discount total",
     "reduction", "off", "less", "minus",
     "خصم", "تخفيض", "خصم المبلغ", "إجمالي الخصم", "ناقص", "أقل"]),
   ("shipping",
    ["shipping", "delivery", "freight", "transport", "shipping cost",
     "delivery fee", "freight charge", "shipping fee",
     "الشحن", "التوصيل", "الشحن والتوصيل", "رسوم الشحن", "تكلفة الشحن"]),
   ("invoice_number",
    ["invoice", "invoice no", "invoice number", "inv no", "inv number",
     "bill", "bill no", "bill number", "receipt", "receipt no",
     "فاتورة", "رقم الفاتورة", "فاتورة رقم", "فاتورة رقم", "إيصال", "رقم الإيصال"]),
   ("date",
    ["date", "invoice date", "issue date", "billing date", "created",
     "due date", "payment due", "expiry", "valid until",
     "تاريخ", "تاريخ الفاتورة", "تاريخ الإصدار", "تاريخ الاستحقاق",
     "تاريخ الدفع", "صالح حتى", "تاريخ الانتهاء"]),
   ("vendor",
    ["from", "vendor", "supplier", "company", "business", "seller",
     "merchant", "provider", "contractor",
     "من", "المورد", "المزود", "الشركة", "التاجر", "المقاول"])]

/-- `self.label_patterns.get(field_type, [])`: field types without an
entry (`subtotal`, `tax_rate`, `due_date`, `address`, `tax_id`, `phone`,
`email`) get the empty pattern list. -/
def patternsFor (ft : String) : List String :=
  ((labelPatterns.find? (fun p => p.1 == ft)).map (·.2)).getD []

/-- The currency table of
`DeterministicExtractor._build_currency_patterns`, in source order. -/
def currency_patterns : List (String × List String) :=
  [("EUR", ["€", "EUR", "euro", "euros", "يورو"]),
   ("USD", ["$", "USD", "dollar", "dollars", "دولار"]),
   ("GBP", ["£", "GBP", "pound", "pounds", "جنيه"]),
   ("JPY", ["¥", "JPY", "yen", "ين"]),
   ("SAR", ["SAR", "riyal", "ريال"]),
   ("AED", ["AED", "dirham", "درهم"]),
   ("EGP", ["EGP", "pound", "جنيه مصري"]),
   ("QAR", ["QAR", "riyal", "ريال قطري"]),
   ("KWD", ["KWD", "dinar", "دينار"]),
   ("BHD", ["BHD", "dinar", "دينار بحريني"])]

/-- Search for `\d{1,4}[/\-.]\d{1,2}[/\-.]\d{1,4}` at the head of a
character list: maximal digit runs make backtracking within a run
unnecessary (a shorter take is followed by a digit, never a separator). -/
def dateLikeAt (cs : List Char) : Bool :=
  let sep := fun c => c = '/' ∨ c = '-' ∨ c = '.'
  match cs.span (·.isDigit) with
  | (d1, c1 :: r1) =>
    if 1 ≤ d1.length ∧ d1.length ≤ 4 ∧ sep c1 then
      match r1.span (·.isDigit) with
      | (d2, c2 :: r2) =>
        if 1 ≤ d2.length ∧ d2.length ≤ 2 ∧ sep c2 then
          match r2 with
          | c3 :: _ => c3.isDigit
          | [] => false
        else false
      | (_, []) => false
    else false
  | (_, []) => false

/-- `re.search` of the date-shape regex used by the `date` type predicate
of `_looks_like_value`. -/
def dateLike : List Char → Bool
  | [] => false
  | c :: rest => dateLikeAt (c :: rest) || dateLike rest

/-- Take exactly `k` digits from the head, returning their value. -/
def takeDigits (k : Nat) (cs : List Char) : Option (Nat × List Char) :=
  let pre := cs.take k
  if pre.length = k ∧ pre.all (·.isDigit) then some (digitsToNat pre, cs.drop k) else none

/-- Match `(\d{4})-(\d{2})-(\d{2})` (the ISO pattern) at the head. -/
def matchIsoAt (cs : List Char) : Option (Nat × Nat × Nat) :=
  match takeDigits 4 cs with
  | some (y, '-' :: r1) =>
    match takeDigits 2 r1 with
    | some (m, '-' :: r2) =>
      match takeDigits 2 r2 with
      | some (d, _) => some (y, m, d)
      | none => none
    | _ => none
  | _ => none

/-- Match `(\d{1,2})sep(\d{1,2})sep(\d{4})` at the head, with the regex
engine's greedy backtracking (two digits tried before one). -/
def matchSepAt (sep : Char) (cs : List Char) : Option (Nat × Nat × Nat) :=
  let second := fun (n1 : Nat) (r : List Char) (k2 : Nat) =>
    match takeDigits k2 r with
    | some (n2, c :: r2) =>
      if c = sep then
        match takeDigits 4 r2 with
        | some (n3, _) => some (n1, n2, n3)
        | none => none
      else none
    | _ => none
  let first := fun (k1 : Nat) =>
    match takeDigits k1 cs with
    | some (n1, c :: r1) =>
      if c = sep then
        match second n1 r1 2 with
        | some g => some g
        | none => second n1 r1 1
      else none
    | _ => none
  match first 2 with
  | some g => some g
  | none => first 1

/-- `re.search`: try the matcher at each position, leftmost match wins. -/
def searchAt (matchAt : List Char → Option α) : List Char → Option α
  | [] => none
  | c :: rest =>
    match matchAt (c :: rest) with
    | some x => some x
    | none => searchAt matchAt rest

/-- `DeterministicExtractor._parse_date`: try the registered patterns in
order (ISO; `DD/MM/YYYY`; `MM/DD/YYYY`; `DD-MM-YYYY`; `MM-DD-YYYY`;
`DD.MM.YYYY`; `MM.DD.YYYY`; the trailing duplicate slash pattern is
absorbed by the first): for each, take the leftmost regex match and hand
it to `strptime`, whose calendar validation failing moves on to the next
pattern. -/
def parse_date (text : String) : Option Date :=
  let cs := text.toList
  let dmy : Char → Option Date := fun sep =>
    (searchAt (matchSepAt sep) cs).bind (fun g =>
      if validDate g.2.2 g.2.1 g.1 then some ⟨g.2.2, g.2.1, g.1⟩ else none)
  let mdy : Char → Option Date := fun sep =>
    (searchAt (matchSepAt sep) cs).bind (fun g =>
      if validDate g.2.2 g.1 g.2.1 then some ⟨g.2.2, g.1, g.2.1⟩ else none)
  ((searchAt matchIsoAt cs).bind (fun g =>
      if validDate g.1 g.2.1 g.2.2 then some ⟨g.1, g.2.1, g.2.2⟩ else none)) <|>
    dmy '/' <|> mdy '/' <|> dmy '-' <|> mdy '-' <|> dmy '.' <|> mdy '.'

/-- Match `(\d+)(\.\d+)?\s*%` at the head (the percentage regex);
`float(group(1))` is decimal-exact and returned as a `Dec`. -/
def matchPctAt (cs : List Char) : Option Dec :=
  match cs.span (·.isDigit) with
  | ([], _) => none
  | (d1, r1) =>
    let fr : List Char × List Char :=
      match r1 with
      | '.' :: rest =>
        match rest.span (·.isDigit) with
        | ([], _) => ([], r1)
        | (d2, r3) => (d2, r3)
      | _ => ([], r1)
    match fr.2.dropWhile (·.isWhitespace) with
    | '%' :: _ => some ⟨(digitsToNat (d1 ++ fr.1) : Int), fr.1.length⟩
    | _ => none

/-- `DeterministicExtractor._parse_percentage`. -/
def parse_percentage (text : String) : Option Dec :=
  searchAt matchPctAt text.toList

/-- `DeterministicExtractor._looks_like_value`: the per-field-type value
predicate (text is stripped first). -/
def looks_like_value (text0 : String) (ft : String) : Bool :=
  let text := stripWs text0
  if ft = "total" ∨ ft = "tax" ∨ ft = "discount" ∨ ft = "shipping" ∨ ft = "subtotal" then
    (text.toList.any (fun c => c.isDigit || c = '.' || c = ',')) && decide (text.length < 50)
  else if ft = "invoice_number" then
    (text.toList.any (·.isAlphanum)) && decide (text.length < 30)
  else if ft = "date" then
    dateLike text.toList
  else if ft = "vendor" then
    decide (2 < text.length) && decide (text.length < 100) &&
      !(text.toList.any (fun c => c.isDigit || c = '.' || c = ','))
  else false

/-- `DeterministicExtractor._parse_field_value`. -/
def parse_field_value (text0 : String) (ft : String) : Option FVal :=
  let text := stripWs text0
  if ft = "total" ∨ ft = "tax" ∨ ft = "discount" ∨ ft = "shipping" ∨ ft = "subtotal" then
    (parse_amount text).map .num
  else if ft = "invoice_number" then some (.str text)
  else if ft = "date" then (parse_date text).map .date
  else if ft = "vendor" then some (.str text)
  else if ft = "tax_rate" then (parse_percentage text).map .num
  else some (.str text)

/-- The `Evidence` sliced from a token. -/
def evOf (t : Token) : Evidence := ⟨t.page, t.bbox, t.text, t.confidence⟩

/-- `DeterministicExtractor._find_value_near_token`: same-page tokens
within distance 200 (the label token itself included), stably sorted by
distance, first one passing the type predicate. -/
def find_value_near_token (tokens : List Token) (label : Token) (ft : String) :
    Option Token :=
  let nearby := (tokens.filter (fun t =>
      t.page == label.page && Frac.blt (tokenDistSq label t) ⟨40000, 1⟩)).map
    (fun t => (t, tokenDistSq label t))
  let sorted := stSortBy (fun a b : Token × Frac => Frac.blt a.2 b.2) nearby
  (sorted.find? (fun p => looks_like_value p.1.text ft)).map (·.1)

/-- `DeterministicExtractor._calculate_field_confidence`, as a function of
the two confidences, the centre distance, and the type-predicate result:
`min(conf_label, conf_cand) · max(0.1, 1 − d/500) · 0.8 · (1 | 0.3)`,
clamped by `min(1.0, max(0.0, ·))`. -/
def confidenceFormula (cl cc dist : Frac) (typeOk : Bool) : Frac :=
  let base := Frac.fmin cl cc
  let distFactor := Frac.fmax ⟨1, 10⟩ (Frac.sub ⟨1, 1⟩ (dist.mul ⟨1, 500⟩))
  let quality : Frac := if typeOk then ⟨1, 1⟩ else ⟨3, 10⟩
  Frac.fmin ⟨1, 1⟩ (Frac.fmax ⟨0, 1⟩ (((base.mul distFactor).mul ⟨8, 10⟩).mul quality))

/-- `DeterministicExtractor._calculate_field_confidence`. -/
def calculate_field_confidence (l v : Token) (ft : String) : Frac :=
  confidenceFormula l.confidence v.confidence (tokenDistance l v)
    (looks_like_value v.text ft)

/-- `DeterministicExtractor._find_field_by_patterns`: for every token
whose lowercased text contains a lowercased label pattern, locate the
nearest typed value token and keep the candidate with the strictly
highest confidence; when required and nothing matched, fall back to the
null field with confidence 0. -/
def find_field_by_patterns (tokens : List Token) (ft : String) (required : Bool) :
    Option FieldValue :=
  let patterns := patternsFor ft
  let r := tokens.foldl
    (fun acc t =>
      patterns.foldl
        (fun (acc2 : Option FieldValue × Frac) pat =>
          if strContains (lowerStr t.text) (lowerStr pat) then
            match find_value_near_token tokens t ft with
            | some vt =>
              let conf := calculate_field_confidence t vt ft
              if Frac.blt acc2.2 conf then
                (some ⟨parse_field_value vt.text ft, conf, [evOf vt]⟩, conf)
              else acc2
            | none => acc2
          else acc2)
        acc)
    (none, ⟨0, 1⟩)
  match r.1 with
  | some fv => some fv
  | none => if required then some ⟨none, ⟨0, 1⟩, []⟩ else none

/-- The per-symbol update step of `DeterministicExtractor._find_currency`
(`if symbol in text and 0.9 > best: set`). -/
def curStepSym (t : Token) (code : String) (acc : Option FieldValue × Frac)
    (sym : String) : Option FieldValue × Frac :=
  if strContains t.text sym ∧ Frac.blt acc.2 ⟨9, 10⟩ then
    (some ⟨some (.str code), ⟨9, 10⟩, [evOf t]⟩, ⟨9, 10⟩)
  else acc

/-- The per-currency-row step of `_find_currency`. -/
def curStepPat (t : Token) (acc : Option FieldValue × Frac)
    (p : String × List String) : Option FieldValue × Frac :=
  p.2.foldl (curStepSym t p.1) acc

/-- The per-token step of `_find_currency`. -/
def curStep (acc : Option FieldValue × Frac) (t : Token) : Option FieldValue × Frac :=
  currency_patterns.foldl (curStepPat t) acc

/-- `DeterministicExtractor._find_currency`: first symbol match wins with
confidence 0.9; when required and nothing matched, default to `EUR` with
confidence 0.1 and no evidence. -/
def find_currency (tokens : List Token) (required : Bool) : Option FieldValue :=
  let r := tokens.foldl curStep (none, ⟨0, 1⟩)
  match r.1 with
  | some fv => some fv
  | none =>
    if required then some ⟨some (.str "EUR"), ⟨1, 10⟩, []⟩ else none

/-- `DeterministicExtractor._looks_like_line_item`. -/
def looks_like_line_item (text : String) : Bool :=
  (text.toList.any (·.isAlpha)) && (text.toList.any (·.isDigit)) &&
    decide (5 < text.length)

/-- `DeterministicExtractor._find_line_item_tokens`: consecutive runs of
line-item-looking tokens. -/
def find_line_item_tokens (tokens : List Token) : List (List Token) :=
  let acc := tokens.foldl
    (fun (acc : List (List Token) × List Token) t =>
      if looks_like_line_item t.text then (acc.1, acc.2 ++ [t])
      else if acc.2.isEmpty then acc
      else (acc.1 ++ [acc.2], []))
    ([], [])
  if acc.2.isEmpty then acc.1 else acc.1 ++ [acc.2]

/-- `DeterministicExtractor._extract_line_description`: the first longest
token (`max` keeps the first maximum). -/
def extract_line_description (ts : List Token) : Option FieldValue :=
  match ts with
  | [] => none
  | h :: t =>
    let best := t.foldl (fun b x => if b.text.length < x.text.length then x else b) h
    some ⟨some (.str best.text), best.confidence, [evOf best]⟩

/-- The full-match quantity regex `^\d+(\.\d+)?$` (on stripped text). -/
def isQuantityText (s : String) : Bool :=
  match s.toList.span (·.isDigit) with
  | ([], _) => false
  | (_, []) => true
  | (_, '.' :: rest) => !rest.isEmpty && rest.all (·.isDigit)
  | _ => false

/-- `DeterministicExtractor._extract_line_quantity` (`float(text)` is
decimal-exact on the matched shape). -/
def extract_line_quantity (ts : List Token) : Option FieldValue :=
  (ts.find? (fun t => isQuantityText (stripWs t.text))).map
    (fun t => ⟨(parseDecimal (stripWs t.text)).map .num, t.confidence, [evOf t]⟩)

/-- A truthy parsed amount (`amount = _parse_amount(text); if amount:`). -/
def truthyAmount (t : Token) : Option Dec :=
  match parse_amount t.text with
  | some d => if d.mant ≠ 0 then some d else none
  | none => none

/-- `DeterministicExtractor._extract_line_unit_price`: first truthy
amount. -/
def extract_line_unit_price (ts : List Token) : Option FieldValue :=
  (ts.findSome? (fun t => (truthyAmount t).map (fun d => (t, d)))).map
    (fun p => ⟨some (.num p.2), p.1.confidence, [evOf p.1]⟩)

/-- `DeterministicExtractor._extract_line_total`: last truthy amount. -/
def extract_line_total (ts : List Token) : Option FieldValue :=
  ((ts.filterMap (fun t => (truthyAmount t).map (fun d => (t, d)))).getLast?).map
    (fun p => ⟨some (.num p.2), p.1.confidence, [evOf p.1]⟩)

/-- `DeterministicExtractor._extract_line_tax_amount`: first token with a
tax keyword and a truthy amount. -/
def extract_line_tax_amount (ts : List Token) : Option FieldValue :=
  (ts.findSome? (fun t =>
    if ["tax", "vat", "ضريبة"].any (fun k => strContains (lowerStr t.text) k) then
      (truthyAmount t).map (fun d => (t, d))
    else none)).map
    (fun p => ⟨some (.num p.2), p.1.confidence, [evOf p.1]⟩)

/-- `DeterministicExtractor._extract_line_tax_rate`: first truthy
percentage. -/
def extract_line_tax_rate (ts : List Token) : Option FieldValue :=
  (ts.findSome? (fun t =>
    match parse_percentage t.text with
    | some d => if d.mant ≠ 0 then some (t, d) else none
    | none => none)).map
    (fun p => ⟨some (.num p.2), p.1.confidence, [evOf p.1]⟩)

/-- `DeterministicExtractor._extract_line_items`.  (The pydantic
description validator cannot fire here: a line-item token contains an
alphanumeric character, so the description never strips to empty.) -/
def extract_line_items (tokens : List Token) : List LineItem :=
  (find_line_item_tokens tokens).filterMap (fun g =>
    match extract_line_description g with
    | some desc =>
      if optTruthy desc.value then
        some ⟨desc, extract_line_quantity g, extract_line_unit_price g,
          extract_line_total g, extract_line_tax_amount g,
          extract_line_tax_rate g, none, none⟩
      else none
    | none => none)

/-- `DeterministicExtractor._extract_notes`: long non-monetary tokens,
concatenated, at the minimum of their confidences. -/
def extract_notes (tokens : List Token) : Option FieldValue :=
  match tokens.filter (fun t =>
      decide (20 < t.text.length) && !looks_like_value t.text "total") with
  | [] => none
  | h :: rest =>
    some ⟨some (.str (String.mk (joinWith [' '] ((h :: rest).map (·.text.toList))))),
      rest.foldl (fun m x => Frac.fmin m x.confidence) h.confidence,
      (h :: rest).map evOf⟩

/-- `DeterministicExtractor._extract_payment_terms`: first token with a
payment keyword. -/
def extract_payment_terms (tokens : List Token) : Option FieldValue :=
  (tokens.find? (fun t =>
    ["payment", "terms", "due", "net", "days"].any
      (fun k => strContains (lowerStr t.text) k))).map
    (fun t => ⟨some (.str t.text), t.confidence, [evOf t]⟩)

/-- `DeterministicExtractor._extract_po_number`: first token with a
purchase-order keyword. -/
def extract_po_number (tokens : List Token) : Option FieldValue :=
  (tokens.find? (fun t =>
    ["po", "purchase order", "order no", "order number"].any
      (fun k => strContains (lowerStr t.text) k))).map
    (fun t => ⟨some (.str t.text), t.confidence, [evOf t]⟩)

/-- The deterministic digest used for `layout_hash` and `duplicate_hash`
(`hashlib.md5(...).hexdigest()`), modelled by an injective stand-in — the
identity on the canonical input string.  Every property proved here uses
only that equal inputs give equal digests. -/
def stableHash (s : String) : String := s

/-- The `(page, y, x)` read-order key of
`DeterministicExtractor._create_layout_fingerprint` (Python tuple
comparison on float values). -/
def tokenSortKeyLt (a b : Token) : Bool :=
  a.page < b.page ∨ (a.page = b.page ∧ (Frac.blt a.bbox.y1 b.bbox.y1 ∨
    (Frac.veq a.bbox.y1 b.bbox.y1 ∧ Frac.blt a.bbox.x1 b.bbox.x1)))

/-- `DeterministicExtractor._create_layout_fingerprint`: hash of the `|`
join of the top-15 read-order token texts. -/
def create_layout_fingerprint (tokens : List Token) : String :=
  let sorted := stSortBy tokenSortKeyLt tokens
  stableHash (String.mk (joinWith ['|'] ((sorted.take 15).map (·.text.toList))))

/-- `DeterministicExtractor._create_duplicate_hash`:
`md5(f"{vendor}|{number}|{date}|{total}")`. -/
def create_duplicate_hash (vn inum idate gt : Option FVal) : String :=
  stableHash (String.mk (optPyStr vn).toList ++ "|" ++ optPyStr inum ++ "|" ++
    optPyStr idate ++ "|" ++ optPyStr gt)

/-- The field zones cached per layout hash by the vendor layout cache. -/
structure CachedZones where
  address : Option FieldValue
  tax_id : Option FieldValue
  phone : Option FieldValue
  email : Option FieldValue
deriving DecidableEq, Repr

/-- `DeterministicExtractor._extract_vendor` (reading side of the layout
cache; the cache write mutates extractor state and affects no output
modelled here). -/
def extract_vendor (cache : List (String × CachedZones)) (tokens : List Token)
    (lh : String) : Vendor :=
  let name := (find_field_by_patterns tokens "vendor" true).getD ⟨none, ⟨0, 1⟩, []⟩
  let zones := (cache.lookup lh).getD ⟨none, none, none, none⟩
  let orZone := fun (x y : Option FieldValue) =>
    match x with
    | some v => some v
    | none => y
  { name := name
    address := orZone (find_field_by_patterns tokens "address" false) zones.address
    tax_id := orZone (find_field_by_patterns tokens "tax_id" false) zones.tax_id
    phone := orZone (find_field_by_patterns tokens "phone" false) zones.phone
    email := orZone (find_field_by_patterns tokens "email" false) zones.email
    layout_hash := some lh }

/-- Blankness test of the pydantic validators
`invoice_number_required`/`vendor_required`
(`v.value is None or str(v.value).strip() == ""`). -/
def fieldBlank (fv : FieldValue) : Bool :=
  match fv.value with
  | none => true
  | some v => stripWs (optPyStr (some v)) == ""

/-- `DeterministicExtractor.extract_invoice`: the full extraction
pipeline.  `now` is the `datetime.now()` timestamp read by the
`created_at` default; `.error` models the pydantic `ValueError`s raised
by the `Amounts` and `Invoice` validators, in source order. -/
def extract_invoice (tokens : List Token) (filename processing_id : String)
    (cache : List (String × CachedZones)) (now : Nat) : Except String Invoice :=
  let layout_hash := create_layout_fingerprint tokens
  let vendor := extract_vendor cache tokens layout_hash
  let subtotal := find_field_by_patterns tokens "subtotal" false
  let tax_amount := find_field_by_patterns tokens "tax" false
  let tax_rate := find_field_by_patterns tokens "tax_rate" false
  let discount := find_field_by_patterns tokens "discount" false
  let shipping := find_field_by_patterns tokens "shipping" false
  let grand_total := (find_field_by_patterns tokens "total" true).getD ⟨none, ⟨0, 1⟩, []⟩
  let currency := (find_currency tokens true).getD ⟨none, ⟨0, 1⟩, []⟩
  if grand_total.value = none then .error "Grand total is required"
  else if currency.value = none then .error "Currency is required"
  else
    let invoice_number :=
      (find_field_by_patterns tokens "invoice_number" true).getD ⟨none, ⟨0, 1⟩, []⟩
    let invoice_date := (find_field_by_patterns tokens "date" true).getD ⟨none, ⟨0, 1⟩, []⟩
    let due_date := find_field_by_patterns tokens "due_date" false
    let line_items := extract_line_items tokens
    let notes := extract_notes tokens
    let payment_terms := extract_payment_terms tokens
    let po_number := extract_po_number tokens
    let duplicate_hash := create_duplicate_hash vendor.name.value invoice_number.value
      invoice_date.value grand_total.value
    if fieldBlank invoice_number then .error "Invoice number is required"
    else if invoice_date.value = none then .error "Invoice date is required"
    else if fieldBlank vendor.name then .error "Vendor name is required"
    else
      .ok
        { invoice_number := invoice_number
          invoice_date := invoice_date
          due_date := due_date
          vendor := vendor
          amounts :=
            { subtotal := subtotal, tax_amount := tax_amount, tax_rate := tax_rate
              discount := discount, shipping := shipping, grand_total := grand_total
              currency := currency }
          line_items := line_items
          notes := notes
          payment_terms := payment_terms
          po_number := po_number
          processing_id := processing_id
          created_at := now
          source_file := filename
          extraction_method := "deterministic"
          llm_patch_applied := false
          human_reviewed := false
          duplicate_hash := some duplicate_hash }

/-- An invoice with its `created_at` timestamp zeroed (for comparing runs
modulo the wall clock). -/
def resetCreatedAt (inv : Invoice) : Invoice := { inv with created_at := 0 }

/-! ## Spec-side definitions (written from the specification's words, for
refinement comparisons) -/

/-- The confidence score as §4.3 of the specification words it:
`min(conf_label, conf_cand) · max(0.1, 1 − d/500) · 0.8 ·
(1 if type-match else 0.3)`, clamped to `[0, 1]`, with `d` the Euclidean
centre distance. -/
def specConfidenceScore (cl cc d : ℚ) (typeOk : Bool) : ℚ :=
  min 1 (max 0 (min cl cc * max (1/10) (1 - d/500) * (8/10) *
    (if typeOk then 1 else 3/10)))

/-- The Euclidean-centre x-coordinate, in exact rationals (spec side). -/
def specCenterX (t : Token) : ℚ := (t.bbox.x1.toQ + t.bbox.x2.toQ) / 2

/-- The Euclidean-centre y-coordinate, in exact rationals (spec side). -/
def specCenterY (t : Token) : ℚ := (t.bbox.y1.toQ + t.bbox.y2.toQ) / 2

/-! ## Concrete instances used by counterexamples and witnesses -/

/-- A field value with a 0.9 confidence and no evidence. -/
def fv9 (v : FVal) : FieldValue := ⟨some v, ⟨9, 10⟩, []⟩

/-- A well-formed invoice whose amounts carry no subtotal but a truthy
shipping of 19 against a grand total of 100. -/
def invC2 : Invoice :=
  { invoice_number := fv9 (.str "INV-1")
    invoice_date := fv9 (.date ⟨2024, 3, 15⟩)
    due_date := none
    vendor := ⟨fv9 (.str "ACME"), none, none, none, none, some "lh"⟩
    amounts :=
      { subtotal := none
        tax_amount := none
        tax_rate := none
        discount := none
        shipping := some (fv9 (.num ⟨19, 0⟩))
        grand_total := fv9 (.num ⟨100, 0⟩)
        currency := ⟨some (.str "EUR"), ⟨1, 10⟩, []⟩ }
    line_items := []
    notes := none
    payment_terms := none
    po_number := none
    processing_id := "pid"
    created_at := 0
    source_file := "f.pdf"
    extraction_method := "deterministic"
    llm_patch_applied := false
    human_reviewed := false
    duplicate_hash := some "dh" }

/-- `invC2` with the shipping field removed: all optional arithmetic
operands are absent. -/
def invC2w : Invoice :=
  { invC2 with amounts.shipping := none }

/-- A failing rule report with one repairable and one non-repairable
failure. -/
def reportC1 : RuleReport :=
  { passed := false
    failures := [⟨"arithmetic_balance", "/amounts/grand_total"⟩, ⟨"date_logic", "/due_date"⟩]
    warnings := [] }

/-- A patch-dict for an LLM patch that violates the response contract in
every clause the claim lists: op `remove`, a 5-character rationale, and no
`cites_bbox` key (so the constructed patch has an empty citation list). -/
def badPatchDict : PatchDict :=
  { op := some "remove"
    path := some "/amounts/currency"
    value := some (some (.str "USD"))
    rationale := some "short"
    cites_bbox := none }

/-- The patch that `JsonPatch(**badPatchDict)` constructs. -/
def badPatch : JsonPatch :=
  ⟨"remove", "/amounts/currency", some (.str "USD"), "short", []⟩

/-- An invoice whose truthy tax amount of 190.00 breaks
`arithmetic_balance` (and `line_sum_tax`) against a grand total of
1200.00. -/
def invC5 : Invoice :=
  { invC2 with
    amounts :=
      { subtotal := none
        tax_amount := some (fv9 (.num ⟨19000, 2⟩))
        tax_rate := none
        discount := none
        shipping := none
        grand_total := fv9 (.num ⟨120000, 2⟩)
        currency := ⟨some (.str "EUR"), ⟨1, 10⟩, []⟩ } }

/-- A contract-conforming repair patch zeroing the tax amount of
`invC5`, after which every rule passes. -/
def patchC5 : JsonPatch :=
  ⟨"replace", "/amounts/tax_amount", some (.num ⟨0, 0⟩),
   "tax line is spurious per the OCR evidence", ["p0#bx_1745"]⟩

/-- A bounding box with integer coordinates. -/
def bbx (a b c d : Int) : Bbox := ⟨⟨a, 1⟩, ⟨b, 1⟩, ⟨c, 1⟩, ⟨d, 1⟩⟩

/-- A token with 0.9 confidence on page 0. -/
def tok9 (s : String) (b : Bbox) : Token := ⟨s, ⟨9, 10⟩, 0, b⟩

/-- A six-token document: a vendor label (its own value), an invoice
label (its own number), a date label with a date value 20 units away, a
total label with an amount value 20 units away; no currency symbol
anywhere. -/
def tokC6 : List Token :=
  [tok9 "vendor" (bbx 0 0 10 10),
   tok9 "invoice" (bbx 300 0 310 10),
   tok9 "date" (bbx 0 300 10 310),
   tok9 "15/03/2024" (bbx 20 300 30 310),
   tok9 "amount" (bbx 0 600 10 610),
   tok9 "100" (bbx 20 600 30 610)]

/-- A token carrying a euro symbol (for the currency-match witness). -/
def tokEuro : Token := tok9 "€ 1.190,00" (bbx 0 0 10 10)

/-- A label token for the confidence-formula witness. -/
def tokC8l : Token := tok9 "amount" (bbx 0 0 10 10)

/-- A value token whose centre is at Euclidean distance 50 (a 30–40–50
triangle) from `tokC8l`'s centre. -/
def tokC8v : Token := tok9 "100" (bbx 30 40 40 50)

/-- A constructible `FieldValue` with a non-null value and zero
confidence. -/
def fvC9 : FieldValue := ⟨some (.str "ACME"), ⟨0, 1⟩, []⟩

/-- A constructible `FieldValue` with no evidence and confidence 0.9. -/
def fvC9b : FieldValue := ⟨none, ⟨9, 10⟩, []⟩

/-- Positivity of a fraction's denominator (every constructed `Frac` has
it; comparisons are faithful under it). -/
def Frac.posDen (x : Frac) : Prop := 0 < x.d

/-- Positivity of all four coordinate denominators of a bounding box. -/
def Bbox.posDen (b : Bbox) : Prop :=
  b.x1.posDen ∧ b.y1.posDen ∧ b.x2.posDen ∧ b.y2.posDen

/-- The `created_at` field of a successful extraction. -/
def createdAtOfResult (e : Except String Invoice) : Option Nat :=
  e.toOption.map (·.created_at)

/-- Whether a token's text contains any symbol of the currency table. -/
def currencyMatchTok (t : Token) : Bool :=
  currency_patterns.any (fun p => p.2.any (fun sym => strContains t.text sym))

/-- A currency field as `_find_currency` builds it on a match: confidence
0.9 and a code drawn from the currency table. -/
def curGood (fv : FieldValue) : Prop :=
  fv.confidence = ⟨9, 10⟩ ∧
    ∃ c, fv.value = some (.str c) ∧ c ∈ currency_patterns.map Prod.fst

/-- The reachable accumulator states of the `_find_currency` fold: either
still the initial `(None, 0.0)` or a matched field at confidence 0.9. -/
def curQ (acc : Option FieldValue × Frac) : Prop :=
  acc = (none, ⟨0, 1⟩) ∨ ∃ fv, acc = (some fv, ⟨9, 10⟩) ∧ curGood fv

/-! ## Theorems -/

/-! ### C3: boundary values of the monetary parser -/

/-- C3 counterexample: the claim states that `"1.234,56"` parses to the
decimal 1234.56.  In the source, when both `,` and `.` are present the
commas are removed (the comma is taken as the thousands separator), so the
string becomes `"1.23456"` and parses to 1.23456 ≠ 1234.56. -/
theorem C3_counterexample :
    parse_amount "1.234,56" = some ⟨123456, 5⟩ ∧
    Dec.toQ ⟨123456, 5⟩ ≠ (1234.56 : ℚ) := by
  refine ⟨by decide, by norm_num [Dec.toQ]⟩

/-- C3 (amended): the monetary parser maps `"1,234.56"` to 1234.56,
`"1,56"` to 1.56 and `"1,234"` to 1234 as claimed, but maps `"1.234,56"`
to 1.23456 (commas are stripped whenever a dot is also present). -/
theorem C3_parse_amount_boundaries :
    (parse_amount "1,234.56" = some ⟨123456, 2⟩ ∧ Dec.toQ ⟨123456, 2⟩ = (1234.56 : ℚ)) ∧
    (parse_amount "1.234,56" = some ⟨123456, 5⟩ ∧ Dec.toQ ⟨123456, 5⟩ = (1.23456 : ℚ)) ∧
    (parse_amount "1,56" = some ⟨156, 2⟩ ∧ Dec.toQ ⟨156, 2⟩ = (1.56 : ℚ)) ∧
    (parse_amount "1,234" = some ⟨1234, 0⟩ ∧ Dec.toQ ⟨1234, 0⟩ = (1234 : ℚ)) :=
  ⟨⟨by decide, by norm_num [Dec.toQ]⟩, ⟨by decide, by norm_num [Dec.toQ]⟩,
   ⟨by decide, by norm_num [Dec.toQ]⟩, ⟨by decide, by norm_num [Dec.toQ]⟩⟩

/-! ### Helper lemmas -/

/-- A report whose `passed` flag equals emptiness of its failures has
`ok()` agreeing with `passed`. -/
theorem ok_eq_passed_of_eq_isEmpty (r : RuleReport)
    (h : r.passed = r.failures.isEmpty) : r.ok = r.passed := by
  rcases r with ⟨p, f, w⟩
  cases f <;> simp_all [RuleReport.ok]

/-- An untruthy optional amount field skips its guard-and-convert
branch. -/
theorem amtDec_eq_none_of_not_truthy (o : Option FieldValue)
    (h : optFieldTruthy o = false) : amtDec o = none := by
  rcases o with _ | fv
  · rfl
  · rcases hv : fv.value with _ | v
    · simp [amtDec, hv]
    · simp [optFieldTruthy, optTruthy, hv] at h
      simp [amtDec, hv, h]

/-- The relative-tolerance test never fires when actual equals expected
and the tolerance is non-negative. -/
theorem relTolExceeded_self (τ : Frac) (x : Dec) (hτ : 0 ≤ τ.n) :
    relTolExceeded τ x x = false := by
  simp only [relTolExceeded, Frac.blt, Frac.mul, Frac.abs, Frac.sub, Dec.toFrac]
  simp only [sub_self, abs_zero, zero_mul, decide_eq_false_iff_not, not_lt]
  positivity

/-- Every failure of `validate_line_sum` carries a `line_sum*` rule. -/
theorem validate_line_sum_rules (τ : Frac) (inv : Invoice) (f : RuleFailure)
    (h : f ∈ validate_line_sum τ inv) :
    f.rule = "line_sum" ∨ f.rule = "line_sum_subtotal" ∨ f.rule = "line_sum_tax" := by
  unfold validate_line_sum at h
  repeat' split at h
  all_goals simp_all
  all_goals (rcases h with h | h <;> simp_all)

/-- Every failure of `validate_dates` carries a date rule. -/
theorem validate_dates_rules (inv : Invoice) (f : RuleFailure)
    (h : f ∈ validate_dates inv) :
    f.rule = "required_date" ∨ f.rule = "date_format" ∨ f.rule = "date_logic" := by
  unfold validate_dates at h
  simp only [List.mem_append] at h
  rcases h with h | h <;> repeat' split at h
  all_goals simp_all

/-- Every failure of `amountFieldCheck` carries an amount rule. -/
theorem amountFieldCheck_rules (name : String) (o : Option FieldValue) (f : RuleFailure)
    (h : f ∈ amountFieldCheck name o) :
    f.rule = "non_negative_amount" ∨ f.rule = "amount_format" := by
  unfold amountFieldCheck at h
  repeat' split at h
  all_goals simp_all

/-- Every failure of `validate_currency` carries a currency or amount
rule. -/
theorem validate_currency_rules (inv : Invoice) (f : RuleFailure)
    (h : f ∈ validate_currency inv) :
    f.rule = "required_currency" ∨ f.rule = "currency_format" ∨
      f.rule = "non_negative_amount" ∨ f.rule = "amount_format" := by
  unfold validate_currency at h
  simp only [List.mem_append] at h
  rcases h with ((((h | h) | h) | h) | h) | h
  · repeat' split at h
    all_goals simp_all
  all_goals (rcases amountFieldCheck_rules _ _ _ h with h' | h' <;> simp [h'])

/-- Every failure of `validate_duplicate_hash` is a `duplicate_hash`
failure. -/
theorem validate_duplicate_hash_rules (inv : Invoice) (f : RuleFailure)
    (h : f ∈ validate_duplicate_hash inv) : f.rule = "duplicate_hash" := by
  unfold validate_duplicate_hash at h
  repeat' split at h
  all_goals simp_all

/-- Every failure of `validate_tax_coherence` is a `tax_coherence`
failure. -/
theorem validate_tax_coherence_rules (τ : Frac) (inv : Invoice) (f : RuleFailure)
    (h : f ∈ validate_tax_coherence τ inv) : f.rule = "tax_coherence" := by
  unfold validate_tax_coherence at h
  repeat' split at h
  all_goals simp_all

/-- Every failure of `roundingCheck` is a `rounding_policy` failure. -/
theorem roundingCheck_rules (maxdp : Nat) (name : String) (o : Option FieldValue)
    (f : RuleFailure) (h : f ∈ roundingCheck maxdp name o) :
    f.rule = "rounding_policy" := by
  unfold roundingCheck at h
  repeat' split at h
  all_goals simp_all

/-- Every failure of `validate_rounding_policy` is a `rounding_policy`
failure. -/
theorem validate_rounding_policy_rules (maxdp : Nat) (inv : Invoice) (f : RuleFailure)
    (h : f ∈ validate_rounding_policy maxdp inv) : f.rule = "rounding_policy" := by
  unfold validate_rounding_policy at h
  simp only [List.mem_append] at h
  rcases h with (((h | h) | h) | h) | h
  all_goals exact roundingCheck_rules _ _ _ _ h

/-! ### C10: the engine's report is internally consistent -/

/-- C10: every report produced by `validate_invoice` has `passed` equal to
emptiness of its failure list, and hence `ok()` agrees with `passed`. -/
theorem C10_validate_invoice_report_consistent (th : ProcessingThresholds)
    (inv : Invoice) :
    (validate_invoice th inv).passed = (validate_invoice th inv).failures.isEmpty ∧
    (validate_invoice th inv).ok = (validate_invoice th inv).passed :=
  ⟨rfl, ok_eq_passed_of_eq_isEmpty _ rfl⟩

/-! ### C2: `arithmetic_balance` with no subtotal -/

/-- C2 counterexample: `invC2` has no subtotal, yet its truthy shipping of
19 is still added to the expected total (the code only anchors the
expected total at the grand total when the subtotal is missing, it does
not ignore the other operands), so `validate_invoice` reports an
`arithmetic_balance` failure. -/
theorem C2_counterexample :
    invC2.amounts.subtotal = none ∧
    (validate_invoice defaultThresholds invC2).failures.any
      (fun f => f.rule == "arithmetic_balance") = true :=
  ⟨rfl, by decide⟩

/-- C2 (amended): the `arithmetic_balance` rule reduces to an identity and
passes for an invoice without a subtotal only when the tax, shipping and
discount operands are also absent, `None` or zero (and the grand total
holds a decimal); a truthy optional operand still enters the expected
total. -/
theorem C2_arithmetic_identity_when_no_operands
    (th : ProcessingThresholds) (inv : Invoice) (gt : Dec)
    (hgt : inv.amounts.grand_total.value = some (.num gt))
    (hτ : 0 ≤ th.arithmetic_tolerance.n)
    (hsub : optFieldTruthy inv.amounts.subtotal = false)
    (htax : optFieldTruthy inv.amounts.tax_amount = false)
    (hship : optFieldTruthy inv.amounts.shipping = false)
    (hdisc : optFieldTruthy inv.amounts.discount = false) :
    (validate_invoice th inv).failures.all
      (fun f => f.rule != "arithmetic_balance") = true := by
  have harith : validate_arithmetic th.arithmetic_tolerance inv = [] := by
    unfold validate_arithmetic
    rw [hgt]
    simp only [Option.bind_some]
    rw [amtDec_eq_none_of_not_truthy _ hsub, amtDec_eq_none_of_not_truthy _ htax,
      amtDec_eq_none_of_not_truthy _ hship, amtDec_eq_none_of_not_truthy _ hdisc]
    simp [decOfFVal, relTolExceeded_self _ _ hτ]
  rw [List.all_eq_true]
  intro f hf
  have hf' : f ∈ (validate_invoice th inv).failures := hf
  simp only [validate_invoice, harith, List.nil_append, List.mem_append] at hf'
  rcases hf' with ((((h | h) | h) | h) | h) | h
  · rcases validate_line_sum_rules _ _ _ h with h' | h' | h' <;> simp [h']
  · rcases validate_dates_rules _ _ h with h' | h' | h' <;> simp [h']
  · rcases validate_currency_rules _ _ h with h' | h' | h' | h' <;> simp [h']
  · simp [validate_duplicate_hash_rules _ _ h]
  · simp [validate_tax_coherence_rules _ _ _ h]
  · simp [validate_rounding_policy_rules _ _ _ h]

/-- C2 witness: the amended theorem evaluated on `invC2w`, whose optional
operands are all absent. -/
theorem C2_witness :
    (validate_invoice defaultThresholds invC2w).failures.all
      (fun f => f.rule != "arithmetic_balance") = true :=
  C2_arithmetic_identity_when_no_operands defaultThresholds invC2w ⟨100, 0⟩
    rfl (by decide) rfl rfl rfl rfl

/-! ### C1: the processing decision -/

/-- C1 counterexample: on a report with one repairable failure
(`arithmetic_balance`) and one non-repairable failure (`date_logic`), the
decision is `llm_fallback` — `_has_fixable_rules` asks for SOME fixable
failure — although not every failure is in the repairable set, where the
claim requires `needs_review`. -/
theorem C1_counterexample :
    make_processing_decision defaultThresholds invC2 reportC1 = .llm_fallback ∧
    reportC1.passed = false ∧
    reportC1.failures.all (fun f => fixable_rules.contains f.rule) = false := by
  decide

/-- C1 (amended): the decision is `auto_posted` exactly when
`field_conf_ok ∧ rules_passed ∧ category_ok`; otherwise it is
`llm_fallback` exactly when the rules failed and AT LEAST ONE failure is
in the repairable set; in every other case it is `needs_review`. -/
theorem C1_decision_characterization (th : ProcessingThresholds) (inv : Invoice)
    (r : RuleReport) :
    (make_processing_decision th inv r = .auto_post ↔
      (check_field_confidence th inv && r.passed && check_category_confidence th inv) = true) ∧
    (make_processing_decision th inv r = .llm_fallback ↔
      (!r.passed && has_fixable_rules r) = true) ∧
    (make_processing_decision th inv r = .needs_review ↔
      ¬ (check_field_confidence th inv && r.passed && check_category_confidence th inv) = true ∧
      ¬ (!r.passed && has_fixable_rules r) = true) := by
  unfold make_processing_decision
  rcases hp : r.passed <;> rcases hfc : check_field_confidence th inv <;>
    rcases hcc : check_category_confidence th inv <;>
    rcases hfx : has_fixable_rules r <;>
    simp [hp, hfc, hcc, hfx]

/-- C1 witness: the characterization evaluated on the counterexample
report recovers the `llm_fallback` decision from its right-hand side. -/
theorem C1_witness :
    make_processing_decision defaultThresholds invC2 reportC1 = .llm_fallback :=
  (C1_decision_characterization defaultThresholds invC2 reportC1).2.1.mpr (by decide)

/-! ### C4: the LLM response contract is not enforced -/

/-- C4: the claim says every contract-violating patch is dropped.  In the
source, `_validate_patch` is never called: `_parse_llm_response` only
drops dicts that fail `JsonPatch` construction, so a patch with op
`remove`, a 5-character rationale and no citations is parsed, returned by
`propose_patch`, and fails every clause of the (dead) contract check. -/
theorem C4_contract_not_enforced :
    parse_llm_response (some [badPatchDict]) = some [badPatch] ∧
    propose_patch_result (parse_llm_response (some [badPatchDict])) = [badPatch] ∧
    validate_patch badPatch = false := by
  refine ⟨rfl, rfl, ?_⟩
  decide

/-! ### C5: a successful repair is auto-posted but never flagged -/

/-- C5: applying `patchC5` to `invC5` makes the single re-validation pass
and the final result `auto_posted`, as claimed — but no code path sets
`llm_patch_applied`, so the final invoice still carries
`llm_patch_applied = false`, contradicting the claim (and the field's own
documentation); when re-validation still fails the status is
`needs_review`. -/
theorem C5_flag_never_set :
    (validate_invoice defaultThresholds invC5).passed = false ∧
    (validate_invoice defaultThresholds
      (apply_patch_to_invoice invC5 [patchC5])).passed = true ∧
    (llm_fallback_finalize defaultThresholds invC5
      (validate_invoice defaultThresholds invC5) (some [patchC5])).status = "auto_posted" ∧
    (llm_fallback_finalize defaultThresholds invC5
      (validate_invoice defaultThresholds invC5)
      (some [patchC5])).invoice.llm_patch_applied = false := by
  refine ⟨by decide, by decide, by decide, by decide⟩

/-! ### C9: the `FieldValue` invariant -/

/-- C9 counterexample: `FieldValue` construction validates only
`confidence ∈ [0, 1]`, so a value with non-null payload and zero
confidence, and a value with no evidence and confidence 0.9 > 0.5, are
both constructible, refuting the claimed invariant. -/
theorem C9_counterexample :
    (fieldValueValid fvC9 ∧ fvC9.value ≠ none ∧ ¬ 0 < fvC9.confidence.toQ) ∧
    (fieldValueValid fvC9b ∧ fvC9b.evidence = [] ∧ ¬ fvC9b.confidence.toQ ≤ 1 / 2) := by
  constructor
  · refine ⟨⟨?_, ?_⟩, by simp [fvC9], ?_⟩ <;>
      norm_num [fieldValueValid, fvC9, Frac.toQ]
  · refine ⟨⟨?_, ?_⟩, rfl, ?_⟩ <;>
      norm_num [fieldValueValid, fvC9b, Frac.toQ]

/-- C9 (amended): the only invariant `FieldValue` construction enforces —
and hence the only one every constructible `FieldValue` satisfies — is
`confidence ∈ [0, 1]`; neither `value ≠ null → confidence > 0` nor
`evidence = ∅ → confidence ≤ 0.5` is checked. -/
theorem C9_fieldvalue_bounds (fv : FieldValue) (h : fieldValueValid fv) :
    0 ≤ fv.confidence.toQ ∧ fv.confidence.toQ ≤ 1 :=
  h

/-- C9 witness: the bounds evaluated on the constructible zero-confidence
value. -/
theorem C9_witness : 0 ≤ fvC9.confidence.toQ ∧ fvC9.confidence.toQ ≤ 1 :=
  C9_fieldvalue_bounds fvC9 (by norm_num [fieldValueValid, fvC9, Frac.toQ])

/-! ### C6: determinism of extraction and validation -/

set_option maxRecDepth 100000 in
/-- C6 counterexample: two runs of `extract_invoice` on the identical
token list, filename, processing id and cache state, but at different
wall-clock instants, differ — `created_at` defaults to `datetime.now()`,
so the outputs are not byte-identical. -/
theorem C6_counterexample :
    extract_invoice tokC6 "a.pdf" "pid" [] 0 ≠ extract_invoice tokC6 "a.pdf" "pid" [] 1 := by
  intro h
  have h0 : createdAtOfResult (extract_invoice tokC6 "a.pdf" "pid" [] 0) = some 0 := by
    decide
  have h1 : createdAtOfResult (extract_invoice tokC6 "a.pdf" "pid" [] 1) = some 1 := by
    decide
  rw [h, h1] at h0
  simp at h0

/-- C6 (amended): on identical tokens, filename, processing id and cache
state, two runs of `extract_invoice` agree on every field except
`created_at` (the wall-clock timestamp), and the `RuleReport` produced by
`validate_invoice` on the two results is identical. -/
theorem C6_extract_validate_deterministic (tokens : List Token) (fn pid : String)
    (cache : List (String × CachedZones)) (th : ProcessingThresholds) (t1 t2 : Nat) :
    (extract_invoice tokens fn pid cache t1).map resetCreatedAt =
      (extract_invoice tokens fn pid cache t2).map resetCreatedAt ∧
    (extract_invoice tokens fn pid cache t1).map (validate_invoice th) =
      (extract_invoice tokens fn pid cache t2).map (validate_invoice th) := by
  constructor <;>
    · simp only [extract_invoice]
      split_ifs <;> rfl

/-- C6 witness: the amended determinism evaluated on the concrete
six-token document. -/
theorem C6_witness :
    (extract_invoice tokC6 "a.pdf" "pid" [] 0).map resetCreatedAt =
      (extract_invoice tokC6 "a.pdf" "pid" [] 5).map resetCreatedAt ∧
    (extract_invoice tokC6 "a.pdf" "pid" [] 0).map (validate_invoice defaultThresholds) =
      (extract_invoice tokC6 "a.pdf" "pid" [] 5).map (validate_invoice defaultThresholds) :=
  C6_extract_validate_deterministic tokC6 "a.pdf" "pid" [] defaultThresholds 0 5

/-! ### Fraction value lemmas (positive denominators) -/

/-- `toQ` is multiplicative. -/
theorem Frac.toQ_mul (a b : Frac) : (a.mul b).toQ = a.toQ * b.toQ := by
  simp only [Frac.toQ, Frac.mul]
  push_cast
  rw [div_mul_div_comm]

/-- `toQ` is additive on positive denominators. -/
theorem Frac.toQ_add (a b : Frac) (ha : a.posDen) (hb : b.posDen) :
    (a.add b).toQ = a.toQ + b.toQ := by
  have ha0 : 0 < a.d := ha
  have hb0 : 0 < b.d := hb
  have ha' : (a.d : ℚ) ≠ 0 := Nat.cast_ne_zero.mpr ha0.ne'
  have hb' : (b.d : ℚ) ≠ 0 := Nat.cast_ne_zero.mpr hb0.ne'
  simp only [Frac.toQ, Frac.add]
  push_cast
  field_simp
  try ring

/-- `toQ` respects subtraction on positive denominators. -/
theorem Frac.toQ_sub (a b : Frac) (ha : a.posDen) (hb : b.posDen) :
    (a.sub b).toQ = a.toQ - b.toQ := by
  have ha0 : 0 < a.d := ha
  have hb0 : 0 < b.d := hb
  have ha' : (a.d : ℚ) ≠ 0 := Nat.cast_ne_zero.mpr ha0.ne'
  have hb' : (b.d : ℚ) ≠ 0 := Nat.cast_ne_zero.mpr hb0.ne'
  simp only [Frac.toQ, Frac.sub]
  push_cast
  field_simp
  try ring

/-- `blt` decides the rational strict order on positive denominators. -/
theorem Frac.blt_iff (a b : Frac) (ha : a.posDen) (hb : b.posDen) :
    a.blt b = true ↔ a.toQ < b.toQ := by
  have ha0 : 0 < a.d := ha
  have hb0 : 0 < b.d := hb
  have ha' : (0 : ℚ) < a.d := by exact_mod_cast ha0
  have hb' : (0 : ℚ) < b.d := by exact_mod_cast hb0
  simp only [Frac.blt, Frac.toQ, decide_eq_true_eq]
  rw [div_lt_div_iff ha' hb']
  constructor <;> intro h <;> exact_mod_cast h

/-- `ble` decides the rational order on positive denominators. -/
theorem Frac.ble_iff (a b : Frac) (ha : a.posDen) (hb : b.posDen) :
    a.ble b = true ↔ a.toQ ≤ b.toQ := by
  have ha0 : 0 < a.d := ha
  have hb0 : 0 < b.d := hb
  have ha' : (0 : ℚ) < a.d := by exact_mod_cast ha0
  have hb' : (0 : ℚ) < b.d := by exact_mod_cast hb0
  simp only [Frac.ble, Frac.toQ, decide_eq_true_eq]
  rw [div_le_div_iff ha' hb']
  constructor <;> intro h <;> exact_mod_cast h

/-- Python `min` agrees with the rational minimum. -/
theorem Frac.fmin_toQ (a b : Frac) (ha : a.posDen) (hb : b.posDen) :
    (a.fmin b).toQ = min a.toQ b.toQ := by
  unfold Frac.fmin
  by_cases h : a.ble b = true
  · rw [if_pos h]
    exact (min_eq_left ((Frac.ble_iff a b ha hb).mp h)).symm
  · rw [if_neg h]
    have : b.toQ < a.toQ := by
      by_contra hc
      exact h ((Frac.ble_iff a b ha hb).mpr (not_lt.mp hc))
    exact (min_eq_right this.le).symm

/-- Python `max` agrees with the rational maximum. -/
theorem Frac.fmax_toQ (a b : Frac) (ha : a.posDen) (hb : b.posDen) :
    (a.fmax b).toQ = max a.toQ b.toQ := by
  unfold Frac.fmax
  by_cases h : a.blt b = true
  · rw [if_pos h]
    exact (max_eq_right ((Frac.blt_iff a b ha hb).mp h).le).symm
  · rw [if_neg h]
    have : b.toQ ≤ a.toQ := by
      by_contra hc
      exact h ((Frac.blt_iff a b ha hb).mpr (not_le.mp hc))
    exact (max_eq_left this).symm

/-- Denominator positivity is preserved by `fmin`. -/
theorem Frac.fmin_posDen (a b : Frac) (ha : a.posDen) (hb : b.posDen) :
    (a.fmin b).posDen := by
  unfold Frac.fmin
  split <;> assumption

/-- Denominator positivity is preserved by `fmax`. -/
theorem Frac.fmax_posDen (a b : Frac) (ha : a.posDen) (hb : b.posDen) :
    (a.fmax b).posDen := by
  unfold Frac.fmax
  split <;> assumption

/-- Denominator positivity is preserved by `mul`. -/
theorem Frac.mul_posDen (a b : Frac) (ha : a.posDen) (hb : b.posDen) :
    (a.mul b).posDen := Nat.mul_pos ha hb

/-- Denominator positivity is preserved by `add`. -/
theorem Frac.add_posDen (a b : Frac) (ha : a.posDen) (hb : b.posDen) :
    (a.add b).posDen := Nat.mul_pos ha hb

/-- Denominator positivity is preserved by `sub`. -/
theorem Frac.sub_posDen (a b : Frac) (ha : a.posDen) (hb : b.posDen) :
    (a.sub b).posDen := Nat.mul_pos ha hb

set_option maxHeartbeats 1000000 in
/-- The code's clamped confidence product agrees, in exact rationals,
with the score formula as the specification words it. -/
theorem confidenceFormula_toQ (cl cc dist : Frac) (ok : Bool)
    (hcl : cl.posDen) (hcc : cc.posDen) (hd : dist.posDen) :
    (confidenceFormula cl cc dist ok).toQ =
      specConfidenceScore cl.toQ cc.toQ dist.toQ ok := by
  have l1 : (⟨1, 1⟩ : Frac).posDen := Nat.one_pos
  have l01 : (⟨0, 1⟩ : Frac).posDen := Nat.one_pos
  have l110 : (⟨1, 10⟩ : Frac).posDen := Nat.succ_pos 9
  have l1500 : (⟨1, 500⟩ : Frac).posDen := Nat.succ_pos 499
  have l810 : (⟨8, 10⟩ : Frac).posDen := Nat.succ_pos 9
  have hq : (if ok then (⟨1, 1⟩ : Frac) else ⟨3, 10⟩).posDen := by
    cases ok
    · exact Nat.succ_pos 9
    · exact Nat.one_pos
  have hm : (dist.mul ⟨1, 500⟩).posDen := Frac.mul_posDen _ _ hd l1500
  have hs : ((⟨1, 1⟩ : Frac).sub (dist.mul ⟨1, 500⟩)).posDen := Frac.sub_posDen _ _ l1 hm
  have hdf : ((⟨1, 10⟩ : Frac).fmax ((⟨1, 1⟩ : Frac).sub (dist.mul ⟨1, 500⟩))).posDen :=
    Frac.fmax_posDen _ _ l110 hs
  have hbase : (cl.fmin cc).posDen := Frac.fmin_posDen _ _ hcl hcc
  have hp1 : ((cl.fmin cc).mul
      ((⟨1, 10⟩ : Frac).fmax ((⟨1, 1⟩ : Frac).sub (dist.mul ⟨1, 500⟩)))).posDen :=
    Frac.mul_posDen _ _ hbase hdf
  have hp2 : (((cl.fmin cc).mul
      ((⟨1, 10⟩ : Frac).fmax ((⟨1, 1⟩ : Frac).sub (dist.mul ⟨1, 500⟩)))).mul
        ⟨8, 10⟩).posDen := Frac.mul_posDen _ _ hp1 l810
  have hp3 : ((((cl.fmin cc).mul
      ((⟨1, 10⟩ : Frac).fmax ((⟨1, 1⟩ : Frac).sub (dist.mul ⟨1, 500⟩)))).mul
        ⟨8, 10⟩).mul (if ok then (⟨1, 1⟩ : Frac) else ⟨3, 10⟩)).posDen :=
    Frac.mul_posDen _ _ hp2 hq
  have hfx : ((⟨0, 1⟩ : Frac).fmax _).posDen := Frac.fmax_posDen _ _ l01 hp3
  unfold confidenceFormula specConfidenceScore
  rw [Frac.fmin_toQ _ _ l1 hfx, Frac.fmax_toQ _ _ l01 hp3, Frac.toQ_mul, Frac.toQ_mul,
    Frac.toQ_mul, Frac.fmin_toQ _ _ hcl hcc, Frac.fmax_toQ _ _ l110 hs,
    Frac.toQ_sub _ _ l1 hm, Frac.toQ_mul]
  cases ok <;> norm_num [Frac.toQ, mul_one_div]

/-! ### C8: the extraction confidence score -/

/-- Newton iteration keeps the iterate at least 1 for inputs at least
2. -/
theorem sqrtFuel_ge_one : ∀ (fuel x n : Nat), 1 ≤ x → 2 ≤ n → 1 ≤ sqrtFuel fuel x n := by
  intro fuel
  induction fuel with
  | zero => intro x n hx _; exact hx
  | succ f ih =>
    intro x n hx hn
    simp only [sqrtFuel]
    split
    · apply ih _ n _ hn
      rcases Nat.lt_or_ge x 2 with h2 | h2
      · have hx1 : x = 1 := by omega
        subst hx1
        rw [Nat.div_one]
        omega
      · have hq : 0 ≤ n / x := Nat.zero_le _
        generalize n / x = q at *
        omega
    · exact hx

/-- The integer square root of a positive number is positive. -/
theorem natSqrt_pos (n : Nat) (hn : 0 < n) : 0 < natSqrt n := by
  unfold natSqrt
  split
  · exact hn
  · have h2 : 2 ≤ n := by omega
    exact sqrtFuel_ge_one n (n / 2) n (by omega) h2

/-- The squared-centre-distance fraction has a positive denominator for
tokens with well-formed boxes. -/
theorem tokenDistSq_posDen (a b : Token) (ha : a.bbox.posDen) (hb : b.bbox.posDen) :
    (tokenDistSq a b).posDen := by
  obtain ⟨hax1, hay1, hax2, hay2⟩ := ha
  obtain ⟨hbx1, hby1, hbx2, hby2⟩ := hb
  have l2 : (⟨1, 2⟩ : Frac).posDen := Nat.succ_pos 1
  have hcax : (a.bbox.centerX).posDen :=
    Frac.mul_posDen _ _ (Frac.add_posDen _ _ hax1 hax2) l2
  have hcay : (a.bbox.centerY).posDen :=
    Frac.mul_posDen _ _ (Frac.add_posDen _ _ hay1 hay2) l2
  have hcbx : (b.bbox.centerX).posDen :=
    Frac.mul_posDen _ _ (Frac.add_posDen _ _ hbx1 hbx2) l2
  have hcby : (b.bbox.centerY).posDen :=
    Frac.mul_posDen _ _ (Frac.add_posDen _ _ hby1 hby2) l2
  have hdx : ((a.bbox.centerX).sub (b.bbox.centerX)).posDen :=
    Frac.sub_posDen _ _ hcax hcbx
  have hdy : ((a.bbox.centerY).sub (b.bbox.centerY)).posDen :=
    Frac.sub_posDen _ _ hcay hcby
  exact Frac.add_posDen _ _ (Frac.mul_posDen _ _ hdx hdx) (Frac.mul_posDen _ _ hdy hdy)

/-- The code's distance fraction has a positive denominator. -/
theorem tokenDistance_posDen (a b : Token) (ha : a.bbox.posDen) (hb : b.bbox.posDen) :
    (tokenDistance a b).posDen :=
  natSqrt_pos _ (tokenDistSq_posDen a b ha hb)

/-- The squared-centre-distance fraction denotes exactly the squared
Euclidean distance between the bounding-box centres. -/
theorem tokenDistSq_toQ (a b : Token) (ha : a.bbox.posDen) (hb : b.bbox.posDen) :
    (tokenDistSq a b).toQ =
      (specCenterX a - specCenterX b) ^ 2 + (specCenterY a - specCenterY b) ^ 2 := by
  obtain ⟨hax1, hay1, hax2, hay2⟩ := ha
  obtain ⟨hbx1, hby1, hbx2, hby2⟩ := hb
  have l2 : (⟨1, 2⟩ : Frac).posDen := Nat.succ_pos 1
  have hcax : (a.bbox.centerX).posDen :=
    Frac.mul_posDen _ _ (Frac.add_posDen _ _ hax1 hax2) l2
  have hcay : (a.bbox.centerY).posDen :=
    Frac.mul_posDen _ _ (Frac.add_posDen _ _ hay1 hay2) l2
  have hcbx : (b.bbox.centerX).posDen :=
    Frac.mul_posDen _ _ (Frac.add_posDen _ _ hbx1 hbx2) l2
  have hcby : (b.bbox.centerY).posDen :=
    Frac.mul_posDen _ _ (Frac.add_posDen _ _ hby1 hby2) l2
  have hdx : ((a.bbox.centerX).sub (b.bbox.centerX)).posDen :=
    Frac.sub_posDen _ _ hcax hcbx
  have hdy : ((a.bbox.centerY).sub (b.bbox.centerY)).posDen :=
    Frac.sub_posDen _ _ hcay hcby
  unfold tokenDistSq
  rw [Frac.toQ_add _ _ (Frac.mul_posDen _ _ hdx hdx) (Frac.mul_posDen _ _ hdy hdy),
    Frac.toQ_mul, Frac.toQ_mul, Frac.toQ_sub _ _ hcax hcbx, Frac.toQ_sub _ _ hcay hcby]
  unfold Bbox.centerX Bbox.centerY specCenterX specCenterY
  rw [Frac.toQ_mul, Frac.toQ_mul, Frac.toQ_mul, Frac.toQ_mul,
    Frac.toQ_add _ _ hax1 hax2, Frac.toQ_add _ _ hay1 hay2,
    Frac.toQ_add _ _ hbx1 hbx2, Frac.toQ_add _ _ hby1 hby2]
  norm_num [Frac.toQ]
  ring

/-- C8: for tokens with well-formed confidences and boxes, and `d` the
Euclidean distance between their bounding-box centres (given through its
square, which the code computes exactly, and its fraction
representation), the extraction confidence equals
`min(conf_label, conf_cand) · max(0.1, 1 − d/500) · 0.8 ·
(1 if type-match else 0.3)` clamped to `[0, 1]`, as the specification
states. -/
theorem C8_confidence_score (l v : Token) (ft : String) (d : ℚ)
    (hl : l.confidence.posDen) (hv : v.confidence.posDen)
    (hbl : l.bbox.posDen) (hbv : v.bbox.posDen)
    (hrep : (tokenDistance l v).toQ = d)
    (hd0 : 0 ≤ d) (hdsq : d * d = (tokenDistSq l v).toQ) :
    (calculate_field_confidence l v ft).toQ =
      specConfidenceScore l.confidence.toQ v.confidence.toQ d
        (looks_like_value v.text ft) ∧
    0 ≤ (calculate_field_confidence l v ft).toQ ∧
    (calculate_field_confidence l v ft).toQ ≤ 1 ∧
    d * d = (specCenterX l - specCenterX v) ^ 2 + (specCenterY l - specCenterY v) ^ 2 := by
  have hdist : (tokenDistance l v).posDen := tokenDistance_posDen l v hbl hbv
  have heq : (calculate_field_confidence l v ft).toQ =
      specConfidenceScore l.confidence.toQ v.confidence.toQ d
        (looks_like_value v.text ft) := by
    unfold calculate_field_confidence
    rw [confidenceFormula_toQ _ _ _ _ hl hv hdist, hrep]
  refine ⟨heq, ?_, ?_, ?_⟩
  · rw [heq]
    unfold specConfidenceScore
    exact le_min (by norm_num) (le_max_left _ _)
  · rw [heq]
    unfold specConfidenceScore
    exact min_le_left _ _
  · rw [hdsq]
    exact tokenDistSq_toQ l v hbl hbv

/-- C8 witness: the score formula evaluated on a label and a value token
whose centres are 50 apart (a 30–40–50 triangle, where the code's square
root is exact). -/
theorem C8_witness :
    (calculate_field_confidence tokC8l tokC8v "total").toQ =
      specConfidenceScore tokC8l.confidence.toQ tokC8v.confidence.toQ 50
        (looks_like_value tokC8v.text "total") ∧
    0 ≤ (calculate_field_confidence tokC8l tokC8v "total").toQ ∧
    (calculate_field_confidence tokC8l tokC8v "total").toQ ≤ 1 ∧
    (50 : ℚ) * 50 =
      (specCenterX tokC8l - specCenterX tokC8v) ^ 2 +
        (specCenterY tokC8l - specCenterY tokC8v) ^ 2 :=
  C8_confidence_score tokC8l tokC8v "total" 50
    (Nat.succ_pos 9) (Nat.succ_pos 9)
    ⟨Nat.one_pos, Nat.one_pos, Nat.one_pos, Nat.one_pos⟩
    ⟨Nat.one_pos, Nat.one_pos, Nat.one_pos, Nat.one_pos⟩
    (by
      have h : tokenDistance tokC8l tokC8v = ⟨800, 16⟩ := by decide
      rw [h]
      norm_num [Frac.toQ])
    (by norm_num)
    (by
      have h : tokenDistSq tokC8l tokC8v = ⟨640000, 256⟩ := by decide
      rw [h]
      norm_num [Frac.toQ])

/-! ### C7: the currency lookup -/

/-- One `_find_currency` symbol step preserves the reachable-state
invariant. -/
theorem curStepSym_Q (t : Token) (code : String)
    (hcode : code ∈ currency_patterns.map Prod.fst) (acc : Option FieldValue × Frac)
    (hQ : curQ acc) (sym : String) : curQ (curStepSym t code acc sym) := by
  unfold curStepSym
  split
  · exact Or.inr ⟨_, rfl, rfl, code, rfl, hcode⟩
  · exact hQ

/-- The symbol fold preserves the invariant. -/
theorem curFoldSym_Q (t : Token) (code : String)
    (hcode : code ∈ currency_patterns.map Prod.fst) :
    ∀ (syms : List String) (acc), curQ acc →
      curQ (syms.foldl (curStepSym t code) acc) := by
  intro syms
  induction syms with
  | nil => intro acc h; exact h
  | cons s ss ih =>
    intro acc h
    rw [List.foldl_cons]
    exact ih _ (curStepSym_Q t code hcode acc h s)

/-- The currency-row fold preserves the invariant. -/
theorem curFoldPat_Q (t : Token) :
    ∀ (ps : List (String × List String)),
      (∀ p ∈ ps, p.1 ∈ currency_patterns.map Prod.fst) →
      ∀ acc, curQ acc → curQ (ps.foldl (curStepPat t) acc) := by
  intro ps
  induction ps with
  | nil => intro _ acc h; exact h
  | cons p ps ih =>
    intro hmem acc h
    rw [List.foldl_cons]
    exact ih (fun q hq => hmem q (List.mem_cons_of_mem _ hq)) _
      (curFoldSym_Q t p.1 (hmem p (List.mem_cons_self _ _)) p.2 acc h)

/-- The token fold preserves the invariant. -/
theorem curFold_Q :
    ∀ (tokens : List Token) (acc), curQ acc → curQ (tokens.foldl curStep acc) := by
  intro tokens
  induction tokens with
  | nil => intro acc h; exact h
  | cons t ts ih =>
    intro acc h
    rw [List.foldl_cons]
    exact ih _ (curFoldPat_Q t currency_patterns (fun p hp => List.mem_map_of_mem _ hp) _ h)

/-- If the symbol fold ends with no match recorded, none of the symbols
occurred in the token text. -/
theorem curFoldSym_none (t : Token) (code : String)
    (hcode : code ∈ currency_patterns.map Prod.fst) :
    ∀ (syms : List String) (acc), curQ acc →
      (syms.foldl (curStepSym t code) acc).1 = none →
      acc.1 = none ∧ ∀ sym ∈ syms, strContains t.text sym = false := by
  intro syms
  induction syms with
  | nil => intro acc _ h; exact ⟨h, by simp⟩
  | cons s ss ih =>
    intro acc hQ hnone
    rw [List.foldl_cons] at hnone
    obtain ⟨h1, h2⟩ := ih _ (curStepSym_Q t code hcode acc hQ s) hnone
    by_cases hc : (strContains t.text s = true ∧ Frac.blt acc.2 ⟨9, 10⟩ = true)
    · have hset : (curStepSym t code acc s).1 =
          some ⟨some (.str code), ⟨9, 10⟩, [evOf t]⟩ := by
        unfold curStepSym
        rw [if_pos hc]
      rw [hset] at h1
      cases h1
    · have hstep : curStepSym t code acc s = acc := by
        unfold curStepSym
        rw [if_neg hc]
      rw [hstep] at h1
      refine ⟨h1, ?_⟩
      intro sym hmem
      rcases List.mem_cons.mp hmem with rfl | hmem'
      · rcases hQ with hacc | ⟨fv, hacc, -⟩
        · have hb : Frac.blt (⟨0, 1⟩ : Frac) ⟨9, 10⟩ = true := by decide
          rw [hacc] at hc
          simpa [hb] using hc
        · rw [hacc] at h1
          cases h1
      · exact h2 sym hmem'

/-- If the row fold ends with no match recorded, no symbol of any row
occurred in the token text. -/
theorem curFoldPat_none (t : Token) :
    ∀ (ps : List (String × List String)),
      (∀ p ∈ ps, p.1 ∈ currency_patterns.map Prod.fst) →
      ∀ acc, curQ acc → (ps.foldl (curStepPat t) acc).1 = none →
      acc.1 = none ∧ ∀ p ∈ ps, ∀ sym ∈ p.2, strContains t.text sym = false := by
  intro ps
  induction ps with
  | nil => intro _ acc _ h; exact ⟨h, by simp⟩
  | cons p ps ih =>
    intro hmem acc hQ hnone
    rw [List.foldl_cons] at hnone
    have hQ' : curQ (curStepPat t acc p) :=
      curFoldSym_Q t p.1 (hmem p (List.mem_cons_self _ _)) p.2 acc hQ
    obtain ⟨h1, h2⟩ := ih (fun q hq => hmem q (List.mem_cons_of_mem _ hq)) _ hQ' hnone
    obtain ⟨h3, h4⟩ :=
      curFoldSym_none t p.1 (hmem p (List.mem_cons_self _ _)) p.2 acc hQ h1
    refine ⟨h3, ?_⟩
    intro q hq sym hsym
    rcases List.mem_cons.mp hq with rfl | hq'
    · exact h4 sym hsym
    · exact h2 q hq' sym hsym

/-- If the token fold ends with no match recorded, no token matched the
currency table. -/
theorem curFold_none :
    ∀ (tokens : List Token) (acc), curQ acc →
      (tokens.foldl curStep acc).1 = none →
      acc.1 = none ∧ ∀ t ∈ tokens, currencyMatchTok t = false := by
  intro tokens
  induction tokens with
  | nil => intro acc _ h; exact ⟨h, by simp⟩
  | cons t ts ih =>
    intro acc hQ hnone
    rw [List.foldl_cons] at hnone
    have hQ' : curQ (curStep acc t) :=
      curFoldPat_Q t currency_patterns (fun p hp => List.mem_map_of_mem _ hp) _ hQ
    obtain ⟨h1, h2⟩ := ih _ hQ' hnone
    obtain ⟨h3, h4⟩ :=
      curFoldPat_none t currency_patterns (fun p hp => List.mem_map_of_mem _ hp) acc hQ h1
    refine ⟨h3, ?_⟩
    intro u hu
    rcases List.mem_cons.mp hu with rfl | hu'
    · by_contra hcon
      have htrue : currencyMatchTok u = true := by
        revert hcon
        cases currencyMatchTok u <;> simp
      rw [currencyMatchTok, List.any_eq_true] at htrue
      obtain ⟨p, hp, hpany⟩ := htrue
      rw [List.any_eq_true] at hpany
      obtain ⟨sym, hsym, hcontains⟩ := hpany
      rw [h4 p hp sym hsym] at hcontains
      cases hcontains
    · exact h2 u hu'

/-- A non-matching symbol leaves the accumulator unchanged. -/
theorem curStepSym_skip (t : Token) (code : String) (acc : Option FieldValue × Frac)
    (sym : String) (h : strContains t.text sym = false) :
    curStepSym t code acc sym = acc := by
  unfold curStepSym
  rw [if_neg]
  simp [h]

/-- A fold over non-matching symbols leaves the accumulator unchanged. -/
theorem curFoldSym_skip (t : Token) (code : String) :
    ∀ (syms : List String) (acc), (∀ sym ∈ syms, strContains t.text sym = false) →
      syms.foldl (curStepSym t code) acc = acc := by
  intro syms
  induction syms with
  | nil => intro acc _; rfl
  | cons s ss ih =>
    intro acc h
    rw [List.foldl_cons, curStepSym_skip t code acc s (h s (List.mem_cons_self _ _))]
    exact ih acc (fun sym hs => h sym (List.mem_cons_of_mem _ hs))

/-- A fold over rows none of whose symbols match leaves the accumulator
unchanged. -/
theorem curFoldPat_skip (t : Token) :
    ∀ (ps : List (String × List String)) (acc),
      (∀ p ∈ ps, ∀ sym ∈ p.2, strContains t.text sym = false) →
      ps.foldl (curStepPat t) acc = acc := by
  intro ps
  induction ps with
  | nil => intro acc _; rfl
  | cons p ps ih =>
    intro acc h
    rw [List.foldl_cons]
    have hstep : curStepPat t acc p = acc :=
      curFoldSym_skip t p.1 p.2 acc (h p (List.mem_cons_self _ _))
    rw [hstep]
    exact ih acc (fun q hq => h q (List.mem_cons_of_mem _ hq))

/-- A fold over non-matching tokens leaves the accumulator unchanged. -/
theorem curFold_skip :
    ∀ (tokens : List Token) (acc), (∀ t ∈ tokens, currencyMatchTok t = false) →
      tokens.foldl curStep acc = acc := by
  intro tokens
  induction tokens with
  | nil => intro acc _; rfl
  | cons t ts ih =>
    intro acc h
    rw [List.foldl_cons]
    have hfacts : ∀ p ∈ currency_patterns, ∀ sym ∈ p.2,
        strContains t.text sym = false := by
      intro p hp sym hsym
      by_contra hcon
      have hct : strContains t.text sym = true := by
        revert hcon
        cases strContains t.text sym <;> simp
      have : currencyMatchTok t = true := by
        rw [currencyMatchTok, List.any_eq_true]
        exact ⟨p, hp, by rw [List.any_eq_true]; exact ⟨sym, hsym, hct⟩⟩
      rw [h t (List.mem_cons_self _ _)] at this
      cases this
    have hstep : curStep acc t = acc := curFoldPat_skip t currency_patterns acc hfacts
    rw [hstep]
    exact ih acc (fun u hu => h u (List.mem_cons_of_mem _ hu))

/-- C7: when no token matches any entry of the currency table, the
required lookup returns the `EUR` default with confidence 0.1 and no
evidence; when some token matches, the returned field holds a code from
the table with confidence 0.9. -/
theorem C7_find_currency_default_and_match (tokens : List Token) :
    ((∀ t ∈ tokens, currencyMatchTok t = false) →
      find_currency tokens true = some ⟨some (.str "EUR"), ⟨1, 10⟩, []⟩) ∧
    ((∃ t ∈ tokens, currencyMatchTok t = true) → ∀ required : Bool,
      ∃ fv, find_currency tokens required = some fv ∧ fv.confidence = ⟨9, 10⟩ ∧
        ∃ c, fv.value = some (.str c) ∧ c ∈ currency_patterns.map Prod.fst) := by
  constructor
  · intro h
    unfold find_currency
    rw [curFold_skip tokens _ h]
    rfl
  · rintro ⟨t, ht, hmatch⟩ required
    rcases curFold_Q tokens (none, ⟨0, 1⟩) (Or.inl rfl) with hfin | ⟨fv, hfin, hgood⟩
    · exfalso
      have h1 : (tokens.foldl curStep (none, ⟨0, 1⟩)).1 = none := by rw [hfin]
      obtain ⟨-, hall⟩ := curFold_none tokens _ (Or.inl rfl) h1
      rw [hall t ht] at hmatch
      cases hmatch
    · refine ⟨fv, ?_, hgood.1, hgood.2⟩
      unfold find_currency
      rw [hfin]

/-- C7 witness: the default on a token list with no currency symbol, and
the 0.9-confidence code on a list containing a euro sign. -/
theorem C7_witness :
    find_currency ([] : List Token) true = some ⟨some (.str "EUR"), ⟨1, 10⟩, []⟩ ∧
    ∃ fv, find_currency [tokEuro] true = some fv ∧ fv.confidence = ⟨9, 10⟩ ∧
      ∃ c, fv.value = some (.str c) ∧ c ∈ currency_patterns.map Prod.fst := by
  constructor
  · exact (C7_find_currency_default_and_match []).1 (by simp)
  · exact (C7_find_currency_default_and_match [tokEuro]).2
      ⟨tokEuro, by simp, by decide⟩ true
